import Mathlib

/-!
Shallow embedding of the nebula-storage sources under verification:
  - storage/admin/TaskUtils.cpp            (toStorageErr)
  - storage/BaseProcessor.inl              (handleAsync, handleErrorCode,
                                            handleLeaderChanged, pushResultCode,
                                            encodeRowVal)
  - storage/index/LookupBaseProcessor.inl  (requestCheck, buildPlan and the four
                                            per-context sub-plan builders)
  - storage/mutate/AddEdgesAtomicProcessor.cpp (processByChain,
                                            encodeSingleEdgeProps)
  - the meta daemon's initKV cluster-id bootstrap

Machine integers are modelled as Nat; external collaborators (kvstore,
schema/index managers, the row codec, the transaction manager) are passed in
as explicit oracle functions, so every definition stays executable.
-/

set_option maxHeartbeats 1000000

/-- PartitionID from the thrift types: a partition identifier. -/
abbrev PartitionID := Nat

/-- GraphSpaceID from the thrift types: a space identifier. -/
abbrev GraphSpaceID := Nat

/-- IndexID from the thrift types: an index identifier. -/
abbrev IndexID := Nat

/-- HostAddr: a daemon identity (host, port); equality is structural. -/
structure HostAddr where
  host : String
  port : Nat
deriving DecidableEq, Repr

/-- kvstore::ResultCode. The cases named in TaskUtils.cpp are translated from
the source; the enum itself is declared outside src/, so the remaining
constructors (here ERR_KEY_NOT_FOUND, ERR_INVALID_ARGUMENT, ERR_IO_ERROR,
ERR_UNKNOWN) stand for the "anything else" codes that the default branch of
the translation receives. -/
inductive ResultCode where
  | SUCCEEDED
  | ERR_LEADER_CHANGED
  | ERR_SPACE_NOT_FOUND
  | ERR_PART_NOT_FOUND
  | ERR_CONSENSUS_ERROR
  | ERR_CHECKPOINT_ERROR
  | ERR_WRITE_BLOCK_ERROR
  | ERR_PARTIAL_RESULT
  | ERR_KEY_NOT_FOUND
  | ERR_INVALID_ARGUMENT
  | ERR_IO_ERROR
  | ERR_UNKNOWN
deriving DecidableEq, Repr

/-- storage cpp2::ErrorCode, restricted to the constructors the embedded
functions mention. -/
inductive ErrorCode where
  | SUCCEEDED
  | E_LEADER_CHANGED
  | E_SPACE_NOT_FOUND
  | E_PART_NOT_FOUND
  | E_CONSENSUS_ERROR
  | E_FAILED_TO_CHECKPOINT
  | E_CHECKPOINT_BLOCKED
  | E_PARTIAL_RESULT
  | E_UNKNOWN
  | E_EDGE_PROP_NOT_FOUND
  | E_TAG_PROP_NOT_FOUND
  | E_NOT_NULLABLE
  | E_DATA_TYPE_MISMATCH
  | E_FIELD_UNSET
  | E_OUT_OF_RANGE
  | E_INVALID_FIELD_VALUE
  | E_INVALID_OPERATION
  | E_INVALID_SPACEVIDLEN
deriving DecidableEq, Repr

/-- toStorageErr, translated from storage/admin/TaskUtils.cpp lines 12-33:
a switch over the kvstore result code with a default branch returning
E_UNKNOWN. -/
def toStorageErr (code : ResultCode) : ErrorCode :=
  match code with
  | .SUCCEEDED => .SUCCEEDED
  | .ERR_LEADER_CHANGED => .E_LEADER_CHANGED
  | .ERR_SPACE_NOT_FOUND => .E_SPACE_NOT_FOUND
  | .ERR_PART_NOT_FOUND => .E_PART_NOT_FOUND
  | .ERR_CONSENSUS_ERROR => .E_CONSENSUS_ERROR
  | .ERR_CHECKPOINT_ERROR => .E_FAILED_TO_CHECKPOINT
  | .ERR_WRITE_BLOCK_ERROR => .E_CHECKPOINT_BLOCKED
  | .ERR_PARTIAL_RESULT => .E_PARTIAL_RESULT
  | _ => .E_UNKNOWN

/-- The eight kvstore codes the spec's translation table names explicitly. -/
def namedKvCodes : List ResultCode :=
  [.SUCCEEDED, .ERR_LEADER_CHANGED, .ERR_SPACE_NOT_FOUND, .ERR_PART_NOT_FOUND,
   .ERR_CONSENSUS_ERROR, .ERR_CHECKPOINT_ERROR, .ERR_WRITE_BLOCK_ERROR,
   .ERR_PARTIAL_RESULT]

/-- Refinement counterpart of toStorageErr, written from the spec's fixed
table (section 7): each named row in order, anything else mapped to Unknown. -/
def specErrTranslation (code : ResultCode) : ErrorCode :=
  if code = .SUCCEEDED then .SUCCEEDED
  else if code = .ERR_LEADER_CHANGED then .E_LEADER_CHANGED
  else if code = .ERR_SPACE_NOT_FOUND then .E_SPACE_NOT_FOUND
  else if code = .ERR_PART_NOT_FOUND then .E_PART_NOT_FOUND
  else if code = .ERR_CONSENSUS_ERROR then .E_CONSENSUS_ERROR
  else if code = .ERR_CHECKPOINT_ERROR then .E_FAILED_TO_CHECKPOINT
  else if code = .ERR_WRITE_BLOCK_ERROR then .E_CHECKPOINT_BLOCKED
  else if code = .ERR_PARTIAL_RESULT then .E_PARTIAL_RESULT
  else .E_UNKNOWN

/-- Modelled from the spec: CommonUtils::to, the kv-to-processor translation
used by BaseProcessor::to, is declared outside src/; section 7 of the spec
fixes it to the same table as toStorageErr. -/
def commonUtilsTo (code : ResultCode) : ErrorCode :=
  match code with
  | .SUCCEEDED => .SUCCEEDED
  | .ERR_LEADER_CHANGED => .E_LEADER_CHANGED
  | .ERR_SPACE_NOT_FOUND => .E_SPACE_NOT_FOUND
  | .ERR_PART_NOT_FOUND => .E_PART_NOT_FOUND
  | .ERR_CONSENSUS_ERROR => .E_CONSENSUS_ERROR
  | .ERR_CHECKPOINT_ERROR => .E_FAILED_TO_CHECKPOINT
  | .ERR_WRITE_BLOCK_ERROR => .E_CHECKPOINT_BLOCKED
  | .ERR_PARTIAL_RESULT => .E_PARTIAL_RESULT
  | _ => .E_UNKNOWN

/-- PartitionResult from the thrift types: per-partition failure record with
an optional suspected leader. -/
structure PartitionResult where
  code : ErrorCode
  partId : PartitionID
  leader : Option HostAddr
deriving DecidableEq, Repr

/-- The mutable fields of a BaseProcessor that handleAsync touches: the
collected failure codes, the outstanding-callback counter, and how many times
onFinished has been invoked. The processor's mutex serializes callbacks, so
the asynchronous completion is modelled as a sequential fold over callback
events. -/
structure ProcState where
  codes : List PartitionResult
  callingNum : Nat
  finishedCalls : Nat
deriving DecidableEq, Repr

/-- pushResultCode(code, partId), translated from BaseProcessor.inl: appends a
PartitionResult without leader unless the code is SUCCEEDED. -/
def pushResultCode (code : ErrorCode) (partId : PartitionID) (s : ProcState) :
    ProcState :=
  if code ≠ ErrorCode.SUCCEEDED then
    { s with codes := s.codes ++ [⟨code, partId, none⟩] }
  else s

/-- pushResultCode(code, partId, leader), translated from BaseProcessor.inl:
appends a PartitionResult carrying the leader unless the code is SUCCEEDED. -/
def pushResultCodeLeader (code : ErrorCode) (partId : PartitionID)
    (leader : HostAddr) (s : ProcState) : ProcState :=
  if code ≠ ErrorCode.SUCCEEDED then
    { s with codes := s.codes ++ [⟨code, partId, some leader⟩] }
  else s

/-- handleLeaderChanged, translated from BaseProcessor.inl: queries the store
for the partition's current leader (the store's answer is passed in as
partLeaderRes); on success records E_LEADER_CHANGED together with that leader,
on failure records the translated sub-error without a leader. -/
def handleLeaderChanged (partLeaderRes : Except ResultCode HostAddr)
    (partId : PartitionID) (s : ProcState) : ProcState :=
  match partLeaderRes with
  | .ok leader => pushResultCodeLeader .E_LEADER_CHANGED partId leader s
  | .error e => pushResultCode (commonUtilsTo e) partId s

/-- handleErrorCode, translated from BaseProcessor.inl: nothing happens on
SUCCEEDED; ERR_LEADER_CHANGED goes through handleLeaderChanged; every other
code is translated and pushed. -/
def handleErrorCode (code : ResultCode)
    (partLeaderRes : Except ResultCode HostAddr) (partId : PartitionID)
    (s : ProcState) : ProcState :=
  if code ≠ ResultCode.SUCCEEDED then
    if code = ResultCode.ERR_LEADER_CHANGED then
      handleLeaderChanged partLeaderRes partId s
    else
      pushResultCode (commonUtilsTo code) partId s
  else s

/-- One per-partition completion event: the partition, the kv result code it
completed with, and what the store would answer if asked for the partition's
leader. -/
structure CallbackEvent where
  partId : PartitionID
  code : ResultCode
  partLeaderRes : Except ResultCode HostAddr

/-- handleAsync, translated from BaseProcessor.inl: under the mutex the
callback records its error code and decrements callingNum; the callback that
brings callingNum to zero calls onFinished after releasing the mutex
(modelled by bumping finishedCalls). -/
def handleAsyncStep (s : ProcState) (e : CallbackEvent) : ProcState :=
  let s1 := handleErrorCode e.code e.partLeaderRes e.partId s
  let s2 := { s1 with callingNum := s1.callingNum - 1 }
  if s2.callingNum = 0 then { s2 with finishedCalls := s2.finishedCalls + 1 }
  else s2

/-- Runs a sequence of completion callbacks (the mutex makes them sequential
in some order). -/
def runCallbacks (events : List CallbackEvent) (s : ProcState) : ProcState :=
  events.foldl handleAsyncStep s

/-- Initial processor state for a fan-out over n partitions: callingNum = n,
no codes collected, onFinished not yet called. -/
def initProcState (n : Nat) : ProcState := ⟨[], n, 0⟩

/-- Property values; the constructors cover what the embedded claims need. -/
inductive Value where
  | nullV
  | intV (i : Int)
  | strV (s : String)
  | boolV (b : Bool)
deriving DecidableEq, Repr

/-- WriteResult from the row codec (RowWriterV2). -/
inductive WriteResult where
  | SUCCEEDED
  | UNKNOWN_FIELD
  | NOT_NULLABLE
  | TYPE_MISMATCH
  | FIELD_UNSET
  | OUT_OF_RANGE
  | INCORRECT_VALUE
deriving DecidableEq, Repr

/-- A field write target: RowWriterV2::setValue is overloaded on a field name
(used when prop_names is non-empty) and on a field position (used when it is
empty). -/
inductive WriteTarget where
  | byName (name : String)
  | byIndex (i : Nat)
deriving DecidableEq, Repr

/-- The row codec as a black box, per the spec's scope section: what each
setValue call answers, what finish answers, and the encoded bytes a fully
written row yields. -/
structure RowWriterModel where
  setVal : WriteTarget → Value → WriteResult
  finishRes : WriteResult
  encoded : String

/-- The write sequence encodeRowVal issues when prop_names is non-empty: the
i-th value goes to the field named propNames[i]. The C++ loop indexes props
by i up to propNames.size(); pairing the two lists models that (an
out-of-range index would be undefined behaviour in the source). -/
def namedWriteSeq (propNames : List String) (props : List Value) :
    List (WriteTarget × Value) :=
  (propNames.zip props).map (fun p => (WriteTarget.byName p.1, p.2))

/-- The write sequence when prop_names is empty: the i-th value goes to field
position i. -/
def indexedWriteSeq (props : List Value) : List (WriteTarget × Value) :=
  props.enum.map (fun p => (WriteTarget.byIndex p.1, p.2))

/-- The setValue loop of encodeRowVal: issues writes in order, stopping at the
first one whose WriteResult is not SUCCEEDED. Returns the last WriteResult
obtained and the log of writes actually issued. -/
def runWrites (w : RowWriterModel) :
    List (WriteTarget × Value) → WriteResult × List (WriteTarget × Value)
  | [] => (WriteResult.SUCCEEDED, [])
  | (t, v) :: rest =>
    let r := w.setVal t v
    if r = WriteResult.SUCCEEDED then
      let res := runWrites w rest
      (res.1, (t, v) :: res.2)
    else (r, [(t, v)])

/-- Outcome of encodeRowVal: the StatusOr return value, the final value of the
wRet out-parameter, and the log of setValue calls issued. -/
structure EncodeOutcome where
  result : Except String String
  wRet : WriteResult
  log : List (WriteTarget × Value)
deriving Repr

/-- encodeRowVal, translated from BaseProcessor.inl lines 506-537: writes each
prop through RowWriterV2 (by name when propNames is non-empty, by position
otherwise), returns an error status as soon as a write fails, then calls
finish and returns an error if that fails, otherwise the encoded string. -/
def encodeRowVal (w : RowWriterModel) (propNames : List String)
    (props : List Value) : EncodeOutcome :=
  let writes :=
    if propNames.isEmpty then indexedWriteSeq props
    else namedWriteSeq propNames props
  let r := runWrites w writes
  if r.1 ≠ WriteResult.SUCCEEDED then
    ⟨Except.error "Add field faild", r.1, r.2⟩
  else if w.finishRes ≠ WriteResult.SUCCEEDED then
    ⟨Except.error "Add field faild", w.finishRes, r.2⟩
  else
    ⟨Except.ok w.encoded, w.finishRes, r.2⟩

/-- ColumnDef of an index field, reduced to what the planner inspects: the
name (matched against yield columns), whether IndexKeyUtils::toValueType of
its type is STRING (counted into vColNum), and nullability. -/
structure ColumnDef where
  name : String
  isStringCol : Bool
  nullable : Bool
deriving DecidableEq, Repr

/-- IndexItem reduced to its ordered field list. -/
structure IndexItem where
  fields : List ColumnDef
deriving DecidableEq, Repr

/-- IndexQueryContext: index id, optional filter (None models
__isset.filter being false), and the per-column hints. -/
structure IndexQueryContext where
  indexId : IndexID
  filter : Option String
  columnHints : List String
deriving DecidableEq, Repr

/-- Plan node kinds of the lookup execution tree. Node-internal configuration
(column lists, vColNum, hasNullableCol, the vertex cache) does not influence
the plan's shape and is not modelled. -/
inductive PlanNode where
  | indexScanNode
  | indexEdgeNode
  | indexVertexNode
  | indexFilterNode
  | indexOutputNode
  | aggregateNode
deriving DecidableEq, Repr

/-- needFilter, translated from LookupBaseProcessor.inl line 76:
ctx.__isset.filter && !ctx.get_filter().empty(). -/
def ctxNeedFilter (ctx : IndexQueryContext) : Bool :=
  match ctx.filter with
  | some f => decide (f ≠ "")
  | none => false

/-- needData, translated from LookupBaseProcessor.inl lines 103-113: scan the
yield columns and set needData (stopping early) as soon as one is not found
among the index's fields. -/
def ctxNeedData (yieldCols : List String) (fields : List ColumnDef) : Bool :=
  yieldCols.any (fun y => fields.all (fun c => decide (c.name ≠ y)))

/-- Spec-words counterpart of needData: true iff some column listed in
return_columns is absent from the index's field list. -/
def specNeedData (returnColumns : List String) (fields : List ColumnDef) :
    Prop :=
  ∃ y ∈ returnColumns, y ∉ fields.map ColumnDef.name

instance (returnColumns : List String) (fields : List ColumnDef) :
    Decidable (specNeedData returnColumns fields) := by
  unfold specNeedData; infer_instance

/-- Spec-words counterpart of needFilter: the context's filter is set and
non-empty. -/
def specNeedFilter (ctx : IndexQueryContext) : Prop :=
  ∃ f, ctx.filter = some f ∧ f ≠ ""

instance (ctx : IndexQueryContext) : Decidable (specNeedFilter ctx) :=
  decidable_of_iff (ctxNeedFilter ctx = true)
    (by unfold ctxNeedFilter specNeedFilter; cases hf : ctx.filter <;> simp)

/-- The schema/index environment the lookup planner consults: index lookup per
kind, schema presence (getEdgeSchema / getTagSchema non-null), and schema-name
resolution (toEdgeName / toTagName returning an ok StatusOr). -/
structure LookupEnv where
  getEdgeIndex : IndexID → Option IndexItem
  getTagIndex : IndexID → Option IndexItem
  hasEdgeSchema : Nat → Bool
  hasTagSchema : Nat → Bool
  toEdgeName : Nat → Option String
  toTagName : Nat → Option String

/-- Error values buildPlan can return (a StatusOr in the source):
indexNotFound is Status::IndexNotFound(); planError is the generic
Status::Error("Index scan plan error") raised when a sub-plan builder returns
null. schemaNotFound is included so the spec's claimed error can be stated; no
code path below produces it. -/
inductive PlanStatus where
  | indexNotFound
  | schemaNotFound
  | planError
deriving DecidableEq, Repr

/-- buildPlanBasic, translated from LookupBaseProcessor.inl lines 153-176:
IndexScanNode feeding IndexOutputNode. Chains are listed producer-first. -/
def buildPlanBasic : List PlanNode :=
  [PlanNode.indexScanNode, PlanNode.indexOutputNode]

/-- buildPlanWithData, translated from LookupBaseProcessor.inl lines 198-249:
returns null (None) when the schema or its name cannot be resolved; otherwise
scan, then IndexEdgeNode for edges / IndexVertexNode for vertices, then
output. -/
def buildPlanWithData (env : LookupEnv) (isEdge : Bool) (schemaId : Nat) :
    Option (List PlanNode) :=
  if (if isEdge then env.hasEdgeSchema schemaId else env.hasTagSchema schemaId)
  then
    match (if isEdge then env.toEdgeName schemaId else env.toTagName schemaId)
    with
    | none => none
    | some _ =>
      if isEdge then
        some [PlanNode.indexScanNode, PlanNode.indexEdgeNode,
              PlanNode.indexOutputNode]
      else
        some [PlanNode.indexScanNode, PlanNode.indexVertexNode,
              PlanNode.indexOutputNode]
  else none

/-- buildPlanWithFilter, translated from LookupBaseProcessor.inl lines
271-298: scan, IndexFilterNode, output; never fails. -/
def buildPlanWithFilterChain : List PlanNode :=
  [PlanNode.indexScanNode, PlanNode.indexFilterNode, PlanNode.indexOutputNode]

/-- buildPlanWithDataAndFilter, translated from LookupBaseProcessor.inl lines
328-390: same schema/name guards as buildPlanWithData; scan, edge/vertex
fetch, filter, output. -/
def buildPlanWithDataAndFilter (env : LookupEnv) (isEdge : Bool)
    (schemaId : Nat) : Option (List PlanNode) :=
  if (if isEdge then env.hasEdgeSchema schemaId else env.hasTagSchema schemaId)
  then
    match (if isEdge then env.toEdgeName schemaId else env.toTagName schemaId)
    with
    | none => none
    | some _ =>
      if isEdge then
        some [PlanNode.indexScanNode, PlanNode.indexEdgeNode,
              PlanNode.indexFilterNode, PlanNode.indexOutputNode]
      else
        some [PlanNode.indexScanNode, PlanNode.indexVertexNode,
              PlanNode.indexFilterNode, PlanNode.indexOutputNode]
  else none

/-- The per-context body of buildPlan, translated from LookupBaseProcessor.inl
lines 74-132: look the index up (IndexNotFound on failure), compute needData
and needFilter, dispatch to one of the four sub-plan builders, and turn a null
sub-plan into the generic plan error. -/
def buildPlanForContext (env : LookupEnv) (isEdge : Bool) (schemaId : Nat)
    (yieldCols : List String) (ctx : IndexQueryContext) :
    Except PlanStatus (List PlanNode) :=
  let needFilter := ctxNeedFilter ctx
  match (if isEdge then env.getEdgeIndex ctx.indexId
         else env.getTagIndex ctx.indexId) with
  | none => Except.error PlanStatus.indexNotFound
  | some index =>
    let needData := ctxNeedData yieldCols index.fields
    let out : Option (List PlanNode) :=
      if !needData && !needFilter then some buildPlanBasic
      else if needData && !needFilter then
        buildPlanWithData env isEdge schemaId
      else if !needData && needFilter then some buildPlanWithFilterChain
      else buildPlanWithDataAndFilter env isEdge schemaId
    match out with
    | none => Except.error PlanStatus.planError
    | some chain => Except.ok chain

/-- buildPlan over the whole context list: each context contributes one chain
feeding the terminal AggregateNode; the first failing context aborts. -/
def buildPlanChains (env : LookupEnv) (isEdge : Bool) (schemaId : Nat)
    (yieldCols : List String) :
    List IndexQueryContext → Except PlanStatus (List (List PlanNode))
  | [] => Except.ok []
  | c :: cs =>
    match buildPlanForContext env isEdge schemaId yieldCols c with
    | Except.error e => Except.error e
    | Except.ok chain =>
      match buildPlanChains env isEdge schemaId yieldCols cs with
      | Except.error e => Except.error e
      | Except.ok rest => Except.ok (chain :: rest)

/-- LookupIndexRequest reduced to the fields requestCheck reads. -/
structure LookupIndexRequest where
  spaceId : GraphSpaceID
  isEdge : Bool
  tagOrEdgeId : Nat
  contexts : List IndexQueryContext
  returnColumns : Option (List String)
deriving DecidableEq, Repr

/-- The processor state requestCheck establishes on success: the yield
columns and the result DataSet's column names, plus the stored contexts. -/
structure ReqCheckState where
  yieldCols : List String
  colNames : List String
  contexts : List IndexQueryContext
deriving DecidableEq, Repr

/-- requestCheck, translated from LookupBaseProcessor.inl lines 12-53: fails
with the vid-len error if getSpaceVidLen fails; fails with
E_INVALID_OPERATION on an empty context list; otherwise adopts the yield
columns from return_columns (empty when unset) and emplaces the result
columns: _src, _ranking, _dst for edges or _vid for vertices, then each
yield column. -/
def requestCheck (vidLenRes : Except ErrorCode Nat)
    (req : LookupIndexRequest) : Except ErrorCode ReqCheckState :=
  match vidLenRes with
  | Except.error e => Except.error e
  | Except.ok _ =>
    if req.contexts.isEmpty then Except.error ErrorCode.E_INVALID_OPERATION
    else
      let yieldCols :=
        match req.returnColumns with
        | some cols => cols
        | none => []
      let base : List String :=
        if req.isEdge then ["_src", "_ranking", "_dst"] else ["_vid"]
      Except.ok ⟨yieldCols, base ++ yieldCols, req.contexts⟩

/-- Thrift EdgeKey of a NewEdge: source vid, signed edge type, rank,
destination vid. Vertex ids are modelled as strings. -/
structure EdgeKeyT where
  src : String
  edgeType : Int
  rank : Int
  dst : String
deriving DecidableEq, Repr

/-- NewEdge: key plus property values. -/
structure NewEdge where
  key : EdgeKeyT
  props : List Value
deriving DecidableEq, Repr

/-- AddEdgesRequest reduced to what processByChain reads: space, prop names,
and the per-local-partition edge lists. The thrift parts field is a map, so
its keys are pairwise distinct. -/
structure AddEdgesRequest where
  spaceId : GraphSpaceID
  propNames : List String
  parts : List (PartitionID × List NewEdge)
deriving DecidableEq, Repr

/-- ChainId, from AddEdgesAtomicProcessor.cpp line 25: (local part, remote
part) identifies one transaction channel. -/
abbrev ChainId := PartitionID × PartitionID

/-- Modelled from the spec: TransactionUtils::edgeKey is declared outside
src/; section 3 of the spec fixes the edge key as the composite
(part, src_vid, edge_type_signed, rank, dst_vid). The vid length only governs
byte padding in the real codec and does not change which key is produced. -/
structure StoreEdgeKey where
  part : PartitionID
  src : String
  edgeType : Int
  rank : Int
  dst : String
deriving DecidableEq, Repr

/-- Builds the store key for an edge rooted at a local partition. -/
def transactionEdgeKey (vIdLen : Nat) (part : PartitionID) (k : EdgeKeyT) :
    StoreEdgeKey :=
  let _ := vIdLen
  ⟨part, k.src, k.edgeType, k.rank, k.dst⟩

/-- A key/value pair headed to the store. -/
abbrev EdgeKV := StoreEdgeKey × String

/-- The collaborators of AddEdgesAtomicProcessor: the meta client's partId for
a destination vid (None models a failed StatusOr), the edge schema for an
edge type together with the codec behaviour for rows of that schema (None
models a null schema pointer), and the index manager's getEdgeIndexes answer
(None models a failed StatusOr; the list holds the index ids). -/
structure TossEnv where
  partIdOf : String → Option PartitionID
  getEdgeSchema : Nat → Option RowWriterModel
  getEdgeIndexes : Option (List Nat)

/-- encodeSingleEdgeProps, translated from AddEdgesAtomicProcessor.cpp lines
130-147: resolve the edge schema of |edge_type| (E_SPACE_NOT_FOUND when
null), then encode the props through encodeRowVal; a non-ok status becomes
E_DATA_TYPE_MISMATCH, otherwise the encoded row is returned. -/
def encodeSingleEdgeProps (env : TossEnv) (propNames : List String)
    (e : NewEdge) : Except ErrorCode String :=
  match env.getEdgeSchema e.key.edgeType.natAbs with
  | none => Except.error ErrorCode.E_SPACE_NOT_FOUND
  | some w =>
    match (encodeRowVal w propNames e.props).result with
    | Except.error _ => Except.error ErrorCode.E_DATA_TYPE_MISMATCH
    | Except.ok v => Except.ok v

/-- The inner edge loop of processByChain for one local partition, translated
from AddEdgesAtomicProcessor.cpp lines 50-72: for each edge resolve the
remote partition of its destination (failure records E_SPACE_NOT_FOUND and
breaks), build the store key, encode the props (failure records the encoder's
code and breaks), and emit the chain-tagged pair. An error is the code
written into failedPart[localPart]; pairs gathered before a failure are
irrelevant because a non-empty failedPart discards all submissions. -/
def splitPartEdges (env : TossEnv) (vIdLen : Nat) (propNames : List String)
    (localPart : PartitionID) :
    List NewEdge → Except ErrorCode (List (ChainId × EdgeKV))
  | [] => Except.ok []
  | e :: es =>
    match env.partIdOf e.key.dst with
    | none => Except.error ErrorCode.E_SPACE_NOT_FOUND
    | some remotePart =>
      let key := transactionEdgeKey vIdLen localPart e.key
      match encodeSingleEdgeProps env propNames e with
      | Except.error c => Except.error c
      | Except.ok v =>
        match splitPartEdges env vIdLen propNames localPart es with
        | Except.error c => Except.error c
        | Except.ok rest =>
          Except.ok (((localPart, remotePart), (key, v)) :: rest)

/-- The outer part loop of processByChain: per-partition failure codes
(failedPart) and the chain-tagged pairs of the partitions that split
cleanly. -/
def splitRequest (env : TossEnv) (vIdLen : Nat) (propNames : List String) :
    List (PartitionID × List NewEdge) →
    List (PartitionID × ErrorCode) × List (ChainId × EdgeKV)
  | [] => ([], [])
  | (lp, es) :: rest =>
    let tailRes := splitRequest env vIdLen propNames rest
    match splitPartEdges env vIdLen propNames lp es with
    | Except.error c => ((lp, c) :: tailRes.1, tailRes.2)
    | Except.ok pairs => (tailRes.1, pairs ++ tailRes.2)

/-- Insertion into the edgesByChain grouping: append the pair's value to an
existing chain's bucket, or open a new bucket at the end. -/
def insertChain (acc : List (ChainId × List EdgeKV)) (cid : ChainId)
    (kv : EdgeKV) : List (ChainId × List EdgeKV) :=
  match acc with
  | [] => [(cid, [kv])]
  | (c, kvs) :: rest =>
    if c = cid then (c, kvs ++ [kv]) :: rest
    else (c, kvs) :: insertChain rest cid kv

/-- edgesByChain: group the split pairs by their chain. The C++ container is
an unordered_map; buckets are kept in first-appearance order, which fixes one
of the admissible iteration orders. -/
def groupByChain (pairs : List (ChainId × EdgeKV)) :
    List (ChainId × List EdgeKV) :=
  pairs.foldl (fun acc p => insertChain acc p.1 p.2) []

/-- The pushResultCode accumulation used by the atomic processor's outcome:
same guard as BaseProcessor::pushResultCode. -/
def pushCode (c : ErrorCode) (p : PartitionID)
    (codes : List (ErrorCode × PartitionID)) : List (ErrorCode × PartitionID) :=
  if c ≠ ErrorCode.SUCCEEDED then codes ++ [(c, p)] else codes

/-- The code a chain's future contributes, translated from
AddEdgesAtomicProcessor.cpp lines 107-113: a future that completes without a
value counts as E_UNKNOWN, otherwise the future's own code. -/
def effectiveChainCode (res : Option ErrorCode) : ErrorCode :=
  match res with
  | none => ErrorCode.E_UNKNOWN
  | some c => c

/-- Outcome of processByChain: the collected per-partition failure codes, the
chains actually submitted to txnMan.addSamePartEdges with their kv batches,
and whether onFinished ran. -/
structure TossOutcome where
  codes : List (ErrorCode × PartitionID)
  submitted : List (ChainId × List EdgeKV)
  finished : Bool
deriving Repr

/-- processByChain, translated from AddEdgesAtomicProcessor.cpp lines 44-128:
split the request into chains recording per-partition failures; a non-empty
failedPart pushes every recorded code and finishes with nothing submitted; a
failing getEdgeIndexes pushes E_SPACE_NOT_FOUND for every listed partition
and finishes; otherwise one addSamePartEdges submission per chain bucket, each
non-succeeded (or lost) future pushing its code against the chain's local
part, and onFinished once all futures are collected. chainResults is the
transaction manager's per-chain answer. -/
def processByChain (env : TossEnv) (vIdLen : Nat) (req : AddEdgesRequest)
    (chainResults : ChainId → Option ErrorCode) : TossOutcome :=
  let split := splitRequest env vIdLen req.propNames req.parts
  if split.1.isEmpty then
    match env.getEdgeIndexes with
    | none =>
      ⟨req.parts.foldl (fun acc p => pushCode ErrorCode.E_SPACE_NOT_FOUND
          p.1 acc) [], [], true⟩
    | some _ =>
      let groups := groupByChain split.2
      let codes := groups.foldl (fun acc g =>
          pushCode (effectiveChainCode (chainResults g.1)) g.1.1 acc) []
      ⟨codes, groups, true⟩
  else
    ⟨split.1.foldl (fun acc p => pushCode p.2 p.1 acc) [], [], true⟩

/-- Canonical host:port rendering used for the cluster-id hash. -/
def canonicalPeer (p : HostAddr) : String :=
  p.host ++ ":" ++ toString p.port

/-- Insertion of a string into a sorted list. -/
def insertSorted (s : String) : List String → List String
  | [] => [s]
  | t :: ts => if s ≤ t then s :: t :: ts else t :: insertSorted s ts

/-- Insertion sort over strings. -/
def sortStrings (l : List String) : List String :=
  l.foldr insertSorted []

/-- Modelled from the spec: ClusterIdMan::create lives in
KVBasedClusterIdMan.h, which is outside src/; section 4.3 of the spec derives
a non-zero 64-bit id from the canonical form of the meta-peer list: a salted
hash of the sorted host:port strings, forced non-zero. -/
def clusterIdCreate (peers : List HostAddr) : Nat :=
  let sorted := sortStrings (peers.map canonicalPeer)
  let salt : Nat := 0xcbf29ce484222325
  let h := sorted.foldl
      (fun acc s =>
        s.foldl (fun a c => (a * 131 + c.toNat + 7) % 2 ^ 64) acc)
      salt % 2 ^ 64
  if h = 0 then 1 else h

/-- Why cluster-id initialization can refuse to proceed: the leader's put of
the new id failed (initKV returns null, the daemon exits), or the follower is
still waiting for the leader's value (the source loops again after a
1-second sleep; the model exposes one loop iteration per supplied read). -/
inductive ClusterInitErr where
  | persistFailed
  | stillWaiting
deriving DecidableEq, Repr

/-- What cluster-id initialization decided: the adopted id, and whether this
replica issued a put for the key. -/
structure ClusterInitResult where
  clusterId : Nat
  wrote : Bool
deriving DecidableEq, Repr

/-- The follower's wait loop, translated from part of initKV: re-read the key
until the value is non-zero. Each element of reads is one re-read (the source
sleeps 1 second between them); the model returns stillWaiting when the
supplied reads are exhausted while the source would keep looping. -/
def followerWait : List Nat → Except ClusterInitErr ClusterInitResult
  | [] => Except.error ClusterInitErr.stillWaiting
  | v :: vs =>
    if v = 0 then followerWait vs
    else Except.ok ⟨v, false⟩

/-- The cluster-id phase of initKV, translated from the meta daemon source:
getClusterIdFromKV yields stored (0 when the key is absent); a non-zero
stored value is adopted as gClusterId; otherwise the leader creates an id
from the configured peers and persists it (putOk tells whether that put
succeeded; failure refuses startup), while a follower re-reads with backoff.
isLeader is the comparison of partLeader(0,0) against the local host. -/
def initClusterId (stored : Nat) (isLeader : Bool) (peers : List HostAddr)
    (putOk : Bool) (followerReads : List Nat) :
    Except ClusterInitErr ClusterInitResult :=
  if stored ≠ 0 then Except.ok ⟨stored, false⟩
  else if isLeader then
    let cid := clusterIdCreate peers
    if putOk then Except.ok ⟨cid, true⟩
    else Except.error ClusterInitErr.persistFailed
  else followerWait followerReads

/-- An edge-splitting success predicate for one edge: its destination's
partition resolves and its props encode. -/
def edgeSplitOk (env : TossEnv) (propNames : List String) (e : NewEdge) :
    Prop :=
  (∃ rp, env.partIdOf e.key.dst = some rp) ∧
  (∃ v, encodeSingleEdgeProps env propNames e = Except.ok v)

/-- Concrete two-column tag index used to exercise the planner. -/
def wIndexC1 : IndexItem :=
  ⟨[⟨"c1", false, false⟩, ⟨"c2", false, false⟩]⟩

/-- Concrete planner environment: tag index 3 over (c1, c2), schema and
schema name resolvable. -/
def wEnvC1 : LookupEnv :=
  ⟨fun _ => none,
   fun i => if i = 3 then some wIndexC1 else none,
   fun _ => false,
   fun _ => true,
   fun _ => none,
   fun _ => some "t1"⟩

/-- Concrete query context over index 3 without a filter. -/
def wCtxC1 : IndexQueryContext := ⟨3, none, []⟩

/-- Concrete single-column tag index for the schema-missing scenario. -/
def cexIndexC7 : IndexItem := ⟨[⟨"c1", false, false⟩]⟩

/-- Planner environment where tag index 3 exists but the tag schema is
missing. -/
def cexEnvC7 : LookupEnv :=
  ⟨fun _ => none,
   fun i => if i = 3 then some cexIndexC7 else none,
   fun _ => false,
   fun _ => false,
   fun _ => none,
   fun _ => none⟩

/-- Concrete query context over index 3 for the schema-missing scenario. -/
def cexCtxC7 : IndexQueryContext := ⟨3, none, []⟩

/-- Planner environment with no index at all. -/
def wEnvC7none : LookupEnv :=
  ⟨fun _ => none, fun _ => none, fun _ => false, fun _ => false,
   fun _ => none, fun _ => none⟩

/-- Codec model that accepts every write. -/
def wWriterOk : RowWriterModel :=
  ⟨fun _ _ => WriteResult.SUCCEEDED, WriteResult.SUCCEEDED, "enc"⟩

/-- Codec model that rejects the field named bad with a type mismatch. -/
def wWriterBad : RowWriterModel :=
  ⟨fun t _ =>
      match t with
      | WriteTarget.byName n =>
        if n = "bad" then WriteResult.TYPE_MISMATCH
        else WriteResult.SUCCEEDED
      | WriteTarget.byIndex _ => WriteResult.SUCCEEDED,
   WriteResult.SUCCEEDED, "enc"⟩

/-- Atomic-writer environment whose partition resolution always fails. -/
def wTossEnvNoPart : TossEnv :=
  ⟨fun _ => none, fun _ => some wWriterOk, some []⟩

/-- Atomic-writer environment where everything resolves: dst "b" lives in
part 2, the schema encodes fine, and there are no edge indexes. -/
def wTossEnvOk : TossEnv :=
  ⟨fun d => if d = "b" then some 2 else some 3,
   fun _ => some wWriterOk, some []⟩

/-- Atomic-writer environment whose schema is present but whose codec rejects
the first prop (prop name bad). -/
def wTossEnvBadCodec : TossEnv :=
  ⟨fun _ => some 2, fun _ => some wWriterBad, some []⟩

/-- A concrete edge a -> b. -/
def wEdgeAB : NewEdge := ⟨⟨"a", 5, 0, "b"⟩, [Value.intV 1]⟩

/-- A one-part, one-edge request with prop name bad (rejected by
wWriterBad). -/
def wReqBad : AddEdgesRequest := ⟨1, ["bad"], [(1, [wEdgeAB])]⟩

/-- A one-part, one-edge request with prop name p1. -/
def wReqOk : AddEdgesRequest := ⟨1, ["p1"], [(1, [wEdgeAB])]⟩

/-! Helper lemmas. -/

theorem commonUtilsTo_ne_succeeded (e : ResultCode)
    (he : e ≠ ResultCode.SUCCEEDED) :
    commonUtilsTo e ≠ ErrorCode.SUCCEEDED := by
  cases e <;> first | exact absurd rfl he | decide

theorem clusterIdCreate_ne_zero (peers : List HostAddr) :
    clusterIdCreate peers ≠ 0 := by
  have h : ∀ n : Nat, (if n = 0 then 1 else n) ≠ 0 := by
    intro n; split <;> simp_all
  unfold clusterIdCreate
  exact h _

theorem followerWait_wrote_false :
    ∀ (reads : List Nat) (res : ClusterInitResult),
      followerWait reads = Except.ok res → res.wrote = false := by
  intro reads
  induction reads with
  | nil => intro res h; simp [followerWait] at h
  | cons v vs ih =>
    intro res h
    by_cases hv : v = 0
    · exact ih res (by simpa [followerWait, hv] using h)
    · simp [followerWait, hv] at h
      cases h
      rfl

theorem followerWait_first_nonzero :
    ∀ (zeros : List Nat) (v : Nat) (rest : List Nat),
      (∀ z ∈ zeros, z = 0) → v ≠ 0 →
      followerWait (zeros ++ v :: rest) = Except.ok ⟨v, false⟩ := by
  intro zeros
  induction zeros with
  | nil => intro v rest _ hv; simp [followerWait, hv]
  | cons z zs ih =>
    intro v rest hz hv
    have hz0 : z = 0 := hz z (List.mem_cons_self z zs)
    simp only [List.cons_append, followerWait, hz0, if_pos rfl]
    exact ih v rest (fun x hx => hz x (List.mem_cons_of_mem z hx)) hv

/-- C6: for every kvstore result code, the KV-to-processor translation is
exactly the spec's fixed table: the eight named rows map as listed and any
other code maps to Unknown. -/
theorem toStorageErr_matches_fixed_table :
    (∀ c, toStorageErr c = specErrTranslation c) ∧
    (∀ c, c ∉ namedKvCodes → toStorageErr c = ErrorCode.E_UNKNOWN) := by
  constructor
  · intro c; cases c <;> rfl
  · intro c hc
    cases c <;> first
      | rfl
      | exact absurd (by decide) hc

/-- Witness for C6 at a concrete unlisted code. -/
theorem toStorageErr_matches_fixed_table_witness :
    ResultCode.ERR_KEY_NOT_FOUND ∉ namedKvCodes ∧
    toStorageErr ResultCode.ERR_KEY_NOT_FOUND = ErrorCode.E_UNKNOWN :=
  ⟨by decide,
   toStorageErr_matches_fixed_table.2 ResultCode.ERR_KEY_NOT_FOUND (by decide)⟩

/-- C8: when a per-partition KV result is LeaderChanged, the recorded
PartitionResult carries the leader obtained from partLeader when that lookup
succeeds; when partLeader fails, the translated sub-error of that failure is
recorded without a leader. -/
theorem handleLeaderChanged_records_leader_or_suberror :
    ∀ (p : PartitionID) (s : ProcState),
      (∀ leader : HostAddr,
        handleLeaderChanged (Except.ok leader) p s =
          { s with codes :=
              s.codes ++ [⟨ErrorCode.E_LEADER_CHANGED, p, some leader⟩] }) ∧
      (∀ e : ResultCode, e ≠ ResultCode.SUCCEEDED →
        handleLeaderChanged (Except.error e) p s =
          { s with codes := s.codes ++ [⟨commonUtilsTo e, p, none⟩] }) := by
  intro p s
  constructor
  · intro leader
    simp [handleLeaderChanged, pushResultCodeLeader]
  · intro e he
    have h := commonUtilsTo_ne_succeeded e he
    simp [handleLeaderChanged, pushResultCode, h]

/-- Witness for C8 at a concrete partition, state, leader and sub-error. -/
theorem handleLeaderChanged_records_leader_or_suberror_witness :
    handleLeaderChanged (Except.ok ⟨"h1", 9779⟩) 7 (initProcState 3) =
      { initProcState 3 with codes :=
          [⟨ErrorCode.E_LEADER_CHANGED, 7, some ⟨"h1", 9779⟩⟩] } ∧
    ResultCode.ERR_PART_NOT_FOUND ≠ ResultCode.SUCCEEDED ∧
    handleLeaderChanged (Except.error ResultCode.ERR_PART_NOT_FOUND) 7
        (initProcState 3) =
      { initProcState 3 with codes :=
          [⟨commonUtilsTo ResultCode.ERR_PART_NOT_FOUND, 7, none⟩] } :=
  ⟨(handleLeaderChanged_records_leader_or_suberror 7 (initProcState 3)).1
      ⟨"h1", 9779⟩,
   by decide,
   (handleLeaderChanged_records_leader_or_suberror 7 (initProcState 3)).2
      ResultCode.ERR_PART_NOT_FOUND (by decide)⟩

/-- C9: on a successful requestCheck the result DataSet's column names are, in
order, _src, _ranking, _dst followed by the yield columns for edges, and _vid
followed by the yield columns for vertices. -/
theorem requestCheck_column_order :
    ∀ (vr : Except ErrorCode Nat) (req : LookupIndexRequest)
      (st : ReqCheckState),
      requestCheck vr req = Except.ok st →
      st.yieldCols = req.returnColumns.getD [] ∧
      st.colNames =
        (if req.isEdge then ["_src", "_ranking", "_dst"] else ["_vid"])
          ++ st.yieldCols := by
  intro vr req st h
  cases vr with
  | error e => simp [requestCheck] at h
  | ok n =>
    by_cases hc : req.contexts.isEmpty
    · simp [requestCheck, hc] at h
    · simp [requestCheck, hc] at h
      cases hrc : req.returnColumns with
      | none =>
        rw [hrc] at h
        cases h
        simp [hrc]
      | some cols =>
        rw [hrc] at h
        cases h
        simp [hrc]

/-- Witness for C9 on a concrete edge request with one yield column. -/
theorem requestCheck_column_order_witness :
    requestCheck (Except.ok 8)
        ⟨1, true, 5, [⟨3, none, []⟩], some ["likeness"]⟩ =
      Except.ok ⟨["likeness"], ["_src", "_ranking", "_dst", "likeness"],
                 [⟨3, none, []⟩]⟩ ∧
    (⟨["likeness"], ["_src", "_ranking", "_dst", "likeness"],
      [⟨3, none, []⟩]⟩ : ReqCheckState).colNames =
      (if (true : Bool) then ["_src", "_ranking", "_dst"] else ["_vid"])
        ++ (⟨["likeness"], ["_src", "_ranking", "_dst", "likeness"],
            [⟨3, none, []⟩]⟩ : ReqCheckState).yieldCols :=
  ⟨rfl,
   (requestCheck_column_order (Except.ok 8)
      ⟨1, true, 5, [⟨3, none, []⟩], some ["likeness"]⟩
      ⟨["likeness"], ["_src", "_ranking", "_dst", "likeness"],
       [⟨3, none, []⟩]⟩ rfl).2⟩

/-- C5: cluster-id initialization adopts a present value; an absent value
makes the leader create a non-zero id and put it, refusing startup on write
failure; an absent value makes a follower re-read until present. A follower
never writes the key and a leader never rewrites an existing value. -/
theorem initClusterId_spec :
    ∀ (stored : Nat) (isLeader : Bool) (peers : List HostAddr) (putOk : Bool)
      (reads : List Nat),
      (stored ≠ 0 →
        initClusterId stored isLeader peers putOk reads =
          Except.ok ⟨stored, false⟩) ∧
      (stored = 0 → isLeader = true → putOk = true →
        initClusterId stored isLeader peers putOk reads =
          Except.ok ⟨clusterIdCreate peers, true⟩ ∧
        clusterIdCreate peers ≠ 0) ∧
      (stored = 0 → isLeader = true → putOk = false →
        initClusterId stored isLeader peers putOk reads =
          Except.error ClusterInitErr.persistFailed) ∧
      (stored = 0 → isLeader = false →
        initClusterId stored isLeader peers putOk reads =
          followerWait reads ∧
        (∀ res, initClusterId stored isLeader peers putOk reads =
            Except.ok res → res.wrote = false) ∧
        (∀ zeros v rest, reads = zeros ++ v :: rest →
          (∀ z ∈ zeros, z = 0) → v ≠ 0 →
          initClusterId stored isLeader peers putOk reads =
            Except.ok ⟨v, false⟩)) := by
  intro stored isLeader peers putOk reads
  refine ⟨fun h0 => by simp [initClusterId, h0], ?_, ?_, ?_⟩
  · intro h0 hl hp
    exact ⟨by simp [initClusterId, h0, hl, hp], clusterIdCreate_ne_zero peers⟩
  · intro h0 hl hp
    simp [initClusterId, h0, hl, hp]
  · intro h0 hl
    have heq : initClusterId stored isLeader peers putOk reads =
        followerWait reads := by simp [initClusterId, h0, hl]
    refine ⟨heq, ?_, ?_⟩
    · intro res hres
      exact followerWait_wrote_false reads res (heq ▸ hres)
    · intro zeros v rest hr hz hv
      rw [heq, hr]
      exact followerWait_first_nonzero zeros v rest hz hv

/-- Witness for C5: one replica set, exercised as leader with a successful
put (fresh cluster), and as a follower that sees the id on its second
re-read. -/
theorem initClusterId_spec_witness :
    ((0 : Nat) = 0 ∧
     initClusterId 0 true [⟨"m1", 45500⟩, ⟨"m2", 45500⟩] true [] =
       Except.ok ⟨clusterIdCreate [⟨"m1", 45500⟩, ⟨"m2", 45500⟩], true⟩ ∧
     clusterIdCreate [⟨"m1", 45500⟩, ⟨"m2", 45500⟩] ≠ 0) ∧
    initClusterId 0 false [⟨"m1", 45500⟩, ⟨"m2", 45500⟩] true [0, 42] =
      Except.ok ⟨42, false⟩ ∧
    initClusterId 77 false [] false [] = Except.ok ⟨77, false⟩ :=
  ⟨⟨rfl,
    (initClusterId_spec 0 true [⟨"m1", 45500⟩, ⟨"m2", 45500⟩] true []).2.1
      rfl rfl rfl⟩,
   (initClusterId_spec 0 false [⟨"m1", 45500⟩, ⟨"m2", 45500⟩] true
      [0, 42]).2.2.2 rfl rfl |>.2.2 [0] 42 [] rfl (by decide) (by decide),
   (initClusterId_spec 77 false [] false []).1 (by decide)⟩

theorem pushResultCode_counters (c : ErrorCode) (p : PartitionID)
    (s : ProcState) :
    (pushResultCode c p s).callingNum = s.callingNum ∧
    (pushResultCode c p s).finishedCalls = s.finishedCalls := by
  unfold pushResultCode
  split_ifs <;> simp

theorem pushResultCodeLeader_counters (c : ErrorCode) (p : PartitionID)
    (l : HostAddr) (s : ProcState) :
    (pushResultCodeLeader c p l s).callingNum = s.callingNum ∧
    (pushResultCodeLeader c p l s).finishedCalls = s.finishedCalls := by
  unfold pushResultCodeLeader
  split_ifs <;> simp

theorem handleLeaderChanged_counters (plr : Except ResultCode HostAddr)
    (p : PartitionID) (s : ProcState) :
    (handleLeaderChanged plr p s).callingNum = s.callingNum ∧
    (handleLeaderChanged plr p s).finishedCalls = s.finishedCalls := by
  cases plr with
  | ok l => exact pushResultCodeLeader_counters _ p l s
  | error e => exact pushResultCode_counters _ p s

theorem handleErrorCode_counters (c : ResultCode)
    (plr : Except ResultCode HostAddr) (p : PartitionID) (s : ProcState) :
    (handleErrorCode c plr p s).callingNum = s.callingNum ∧
    (handleErrorCode c plr p s).finishedCalls = s.finishedCalls := by
  unfold handleErrorCode
  split_ifs
  · exact handleLeaderChanged_counters plr p s
  · exact pushResultCode_counters _ p s
  · simp

theorem handleAsyncStep_callingNum (s : ProcState) (e : CallbackEvent) :
    (handleAsyncStep s e).callingNum = s.callingNum - 1 := by
  have h := handleErrorCode_counters e.code e.partLeaderRes e.partId s
  simp only [handleAsyncStep]
  split_ifs with hz <;> simp_all

theorem handleAsyncStep_finished_last (s : ProcState) (e : CallbackEvent)
    (h1 : s.callingNum = 1) :
    (handleAsyncStep s e).finishedCalls = s.finishedCalls + 1 := by
  have h := handleErrorCode_counters e.code e.partLeaderRes e.partId s
  simp only [handleAsyncStep]
  split_ifs with hz
  · simp [h.2]
  · exact absurd (by rw [h.1, h1]) hz

theorem handleAsyncStep_not_finished (s : ProcState) (e : CallbackEvent)
    (h1 : 1 < s.callingNum) :
    (handleAsyncStep s e).finishedCalls = s.finishedCalls := by
  have h := handleErrorCode_counters e.code e.partLeaderRes e.partId s
  simp only [handleAsyncStep]
  split_ifs with hz
  · rw [h.1] at hz; omega
  · simp [h.2]

theorem runCallbacks_under :
    ∀ (l : List CallbackEvent) (s : ProcState), l.length < s.callingNum →
      (runCallbacks l s).finishedCalls = s.finishedCalls ∧
      (runCallbacks l s).callingNum = s.callingNum - l.length := by
  intro l
  induction l with
  | nil => intro s _; simp [runCallbacks]
  | cons e es ih =>
    intro s hlen
    have hgt : 1 < s.callingNum := by
      simp only [List.length_cons] at hlen; omega
    have hstep := handleAsyncStep_callingNum s e
    have hfin := handleAsyncStep_not_finished s e hgt
    have hrec : es.length < (handleAsyncStep s e).callingNum := by
      rw [hstep]; simp only [List.length_cons] at hlen; omega
    have hih := ih (handleAsyncStep s e) hrec
    refine ⟨?_, ?_⟩
    · simpa [runCallbacks, hfin] using hih.1
    · have h2 := hih.2
      rw [hstep] at h2
      simp only [runCallbacks, List.foldl_cons] at h2 ⊢
      rw [h2]
      simp only [List.length_cons]
      omega

theorem runCallbacks_exact :
    ∀ (l : List CallbackEvent) (s : ProcState), s.callingNum = l.length →
      0 < l.length →
      (runCallbacks l s).finishedCalls = s.finishedCalls + 1 := by
  intro l
  induction l with
  | nil => intro s _ h; simp at h
  | cons e es ih =>
    intro s hnum _
    cases es with
    | nil =>
      have h1 : s.callingNum = 1 := by simpa using hnum
      simp [runCallbacks, handleAsyncStep_finished_last s e h1]
    | cons e2 es2 =>
      have hgt : 1 < s.callingNum := by simp [hnum]
      have hstep := handleAsyncStep_callingNum s e
      have hfin := handleAsyncStep_not_finished s e hgt
      have hnum2 : (handleAsyncStep s e).callingNum = (e2 :: es2).length := by
        rw [hstep, hnum]; simp
      have hih := ih (handleAsyncStep s e) hnum2 (by simp)
      simpa [runCallbacks, hfin] using hih

/-- C4: a fan-out over n partitions, with each completion callback recording
its error code and decrementing callingNum under the mutex (modelled as a
sequential fold), calls onFinished exactly once, namely at the callback that
brings callingNum from 1 to 0 — no proper prefix of the callbacks has called
it. -/
theorem handleAsync_onFinished_exactly_once :
    ∀ (events : List CallbackEvent), events ≠ [] →
      (runCallbacks events (initProcState events.length)).finishedCalls = 1 ∧
      (∀ k, k < events.length →
        (runCallbacks (events.take k)
            (initProcState events.length)).finishedCalls = 0) ∧
      (∀ (s : ProcState) (e : CallbackEvent),
        (handleAsyncStep s e).callingNum = s.callingNum - 1 ∧
        (handleAsyncStep s e).codes =
          (handleErrorCode e.code e.partLeaderRes e.partId s).codes) := by
  intro events hne
  refine ⟨?_, ?_, ?_⟩
  · have hlen : 0 < events.length := List.length_pos.mpr hne
    exact runCallbacks_exact events (initProcState events.length) rfl hlen
  · intro k hk
    have hlt : (events.take k).length < events.length := by
      simp [List.length_take]; omega
    exact (runCallbacks_under (events.take k)
      (initProcState events.length) hlt).1
  · intro s e
    refine ⟨handleAsyncStep_callingNum s e, ?_⟩
    simp only [handleAsyncStep]
    split_ifs <;> simp

/-- Witness for C4: three callbacks over three partitions, one of them a
failure; onFinished fires exactly at the third. -/
theorem handleAsync_onFinished_exactly_once_witness :
    (runCallbacks
        [⟨1, ResultCode.SUCCEEDED, Except.error ResultCode.ERR_UNKNOWN⟩,
         ⟨2, ResultCode.ERR_CONSENSUS_ERROR,
            Except.error ResultCode.ERR_UNKNOWN⟩,
         ⟨3, ResultCode.SUCCEEDED, Except.error ResultCode.ERR_UNKNOWN⟩]
        (initProcState 3)).finishedCalls = 1 ∧
    (runCallbacks
        ([⟨1, ResultCode.SUCCEEDED, Except.error ResultCode.ERR_UNKNOWN⟩,
          ⟨2, ResultCode.ERR_CONSENSUS_ERROR,
             Except.error ResultCode.ERR_UNKNOWN⟩,
          ⟨3, ResultCode.SUCCEEDED, Except.error ResultCode.ERR_UNKNOWN⟩].take
            2)
        (initProcState 3)).finishedCalls = 0 :=
  ⟨(handleAsync_onFinished_exactly_once
      [⟨1, ResultCode.SUCCEEDED, Except.error ResultCode.ERR_UNKNOWN⟩,
       ⟨2, ResultCode.ERR_CONSENSUS_ERROR,
          Except.error ResultCode.ERR_UNKNOWN⟩,
       ⟨3, ResultCode.SUCCEEDED, Except.error ResultCode.ERR_UNKNOWN⟩]
      (List.cons_ne_nil _ _)).1,
   (handleAsync_onFinished_exactly_once
      [⟨1, ResultCode.SUCCEEDED, Except.error ResultCode.ERR_UNKNOWN⟩,
       ⟨2, ResultCode.ERR_CONSENSUS_ERROR,
          Except.error ResultCode.ERR_UNKNOWN⟩,
       ⟨3, ResultCode.SUCCEEDED, Except.error ResultCode.ERR_UNKNOWN⟩]
      (List.cons_ne_nil _ _)).2.1 2 (by decide)⟩

theorem ctxNeedData_iff (y : List String) (f : List ColumnDef) :
    ctxNeedData y f = true ↔ specNeedData y f := by
  unfold ctxNeedData specNeedData
  simp [List.any_eq_true, List.all_eq_true, List.mem_map]

theorem ctxNeedFilter_iff (ctx : IndexQueryContext) :
    ctxNeedFilter ctx = true ↔ specNeedFilter ctx := by
  unfold ctxNeedFilter specNeedFilter
  cases hf : ctx.filter <;> simp

theorem buildPlanWithData_shape (env : LookupEnv) (isEdge : Bool) (sid : Nat)
    (chain : List PlanNode)
    (h : buildPlanWithData env isEdge sid = some chain) :
    chain = [PlanNode.indexScanNode,
             if isEdge then PlanNode.indexEdgeNode
             else PlanNode.indexVertexNode,
             PlanNode.indexOutputNode] := by
  cases isEdge
  case false =>
    have hrw : buildPlanWithData env false sid =
        (if env.hasTagSchema sid = true then
          match env.toTagName sid with
          | none => none
          | some _ => some [PlanNode.indexScanNode, PlanNode.indexVertexNode,
                            PlanNode.indexOutputNode]
         else none) := rfl
    rw [hrw] at h
    by_cases hs : env.hasTagSchema sid = true
    · rw [if_pos hs] at h
      cases hn : env.toTagName sid <;> rw [hn] at h <;> simp_all
    · rw [if_neg hs] at h; simp at h
  case true =>
    have hrw : buildPlanWithData env true sid =
        (if env.hasEdgeSchema sid = true then
          match env.toEdgeName sid with
          | none => none
          | some _ => some [PlanNode.indexScanNode, PlanNode.indexEdgeNode,
                            PlanNode.indexOutputNode]
         else none) := rfl
    rw [hrw] at h
    by_cases hs : env.hasEdgeSchema sid = true
    · rw [if_pos hs] at h
      cases hn : env.toEdgeName sid <;> rw [hn] at h <;> simp_all
    · rw [if_neg hs] at h; simp at h

theorem buildPlanWithDataAndFilter_shape (env : LookupEnv) (isEdge : Bool)
    (sid : Nat) (chain : List PlanNode)
    (h : buildPlanWithDataAndFilter env isEdge sid = some chain) :
    chain = [PlanNode.indexScanNode,
             if isEdge then PlanNode.indexEdgeNode
             else PlanNode.indexVertexNode,
             PlanNode.indexFilterNode, PlanNode.indexOutputNode] := by
  cases isEdge
  case false =>
    have hrw : buildPlanWithDataAndFilter env false sid =
        (if env.hasTagSchema sid = true then
          match env.toTagName sid with
          | none => none
          | some _ => some [PlanNode.indexScanNode, PlanNode.indexVertexNode,
                            PlanNode.indexFilterNode,
                            PlanNode.indexOutputNode]
         else none) := rfl
    rw [hrw] at h
    by_cases hs : env.hasTagSchema sid = true
    · rw [if_pos hs] at h
      cases hn : env.toTagName sid <;> rw [hn] at h <;> simp_all
    · rw [if_neg hs] at h; simp at h
  case true =>
    have hrw : buildPlanWithDataAndFilter env true sid =
        (if env.hasEdgeSchema sid = true then
          match env.toEdgeName sid with
          | none => none
          | some _ => some [PlanNode.indexScanNode, PlanNode.indexEdgeNode,
                            PlanNode.indexFilterNode,
                            PlanNode.indexOutputNode]
         else none) := rfl
    rw [hrw] at h
    by_cases hs : env.hasEdgeSchema sid = true
    · rw [if_pos hs] at h
      cases hn : env.toEdgeName sid <;> rw [hn] at h <;> simp_all
    · rw [if_neg hs] at h; simp at h

theorem buildPlanForContext_eq (env : LookupEnv) (isEdge : Bool) (sid : Nat)
    (y : List String) (ctx : IndexQueryContext) (index : IndexItem)
    (hidx : (if isEdge then env.getEdgeIndex ctx.indexId
             else env.getTagIndex ctx.indexId) = some index) :
    buildPlanForContext env isEdge sid y ctx =
      (let needFilter := ctxNeedFilter ctx
       let needData := ctxNeedData y index.fields
       let out : Option (List PlanNode) :=
         if !needData && !needFilter then some buildPlanBasic
         else if needData && !needFilter then buildPlanWithData env isEdge sid
         else if !needData && needFilter then some buildPlanWithFilterChain
         else buildPlanWithDataAndFilter env isEdge sid
       match out with
       | none => Except.error PlanStatus.planError
       | some chain => Except.ok chain) := by
  unfold buildPlanForContext
  rw [hidx]

/-- C1: each context's sub-plan has exactly one of four shapes, selected by
needData (some return column absent from the index's fields) and needFilter
(the context's filter is set and non-empty): scan-output, scan-(edge|vertex)-
output, scan-filter-output, or scan-(edge|vertex)-filter-output. -/
theorem buildPlan_four_shapes :
    ∀ (env : LookupEnv) (isEdge : Bool) (sid : Nat) (yieldCols : List String)
      (ctx : IndexQueryContext) (index : IndexItem) (chain : List PlanNode),
      (if isEdge then env.getEdgeIndex ctx.indexId
       else env.getTagIndex ctx.indexId) = some index →
      buildPlanForContext env isEdge sid yieldCols ctx = Except.ok chain →
      ((¬ specNeedData yieldCols index.fields ∧ ¬ specNeedFilter ctx) →
        chain = [PlanNode.indexScanNode, PlanNode.indexOutputNode]) ∧
      ((specNeedData yieldCols index.fields ∧ ¬ specNeedFilter ctx) →
        chain = [PlanNode.indexScanNode,
                 if isEdge then PlanNode.indexEdgeNode
                 else PlanNode.indexVertexNode,
                 PlanNode.indexOutputNode]) ∧
      ((¬ specNeedData yieldCols index.fields ∧ specNeedFilter ctx) →
        chain = [PlanNode.indexScanNode, PlanNode.indexFilterNode,
                 PlanNode.indexOutputNode]) ∧
      ((specNeedData yieldCols index.fields ∧ specNeedFilter ctx) →
        chain = [PlanNode.indexScanNode,
                 if isEdge then PlanNode.indexEdgeNode
                 else PlanNode.indexVertexNode,
                 PlanNode.indexFilterNode, PlanNode.indexOutputNode]) := by
  intro env isEdge sid y ctx index chain hidx h
  have hdIff := ctxNeedData_iff y index.fields
  have hfIff := ctxNeedFilter_iff ctx
  rw [buildPlanForContext_eq env isEdge sid y ctx index hidx] at h
  cases hd : ctxNeedData y index.fields <;> cases hf : ctxNeedFilter ctx
  · -- neither
    simp only [hd, hf, Bool.not_false, Bool.and_self, if_pos,
      Bool.true_and] at h
    simp only [Except.ok.injEq] at h
    subst h
    exact ⟨fun _ => rfl,
           fun hc => absurd (hdIff.mpr hc.1) (by simp [hd]),
           fun hc => absurd (hfIff.mpr hc.2) (by simp [hf]),
           fun hc => absurd (hdIff.mpr hc.1) (by simp [hd])⟩
  · -- filter only
    simp only [hd, hf, Bool.not_false, Bool.not_true, Bool.true_and,
      Bool.and_false, Bool.false_and, Bool.and_true, if_false, if_true,
      Bool.false_eq_true] at h
    simp only [Except.ok.injEq] at h
    subst h
    exact ⟨fun hc => absurd (hfIff.mp hf) hc.2,
           fun hc => absurd (hfIff.mp hf) hc.2,
           fun _ => rfl,
           fun hc => absurd (hdIff.mpr hc.1) (by simp [hd])⟩
  · -- data only
    simp only [hd, hf, Bool.not_false, Bool.not_true, Bool.true_and,
      Bool.and_false, Bool.false_and, Bool.and_true, if_false, if_true,
      Bool.false_eq_true] at h
    cases hdf : buildPlanWithData env isEdge sid with
    | none => rw [hdf] at h; simp at h
    | some c =>
      rw [hdf] at h
      simp only [Except.ok.injEq] at h
      subst h
      have hshape := buildPlanWithData_shape env isEdge sid c hdf
      exact ⟨fun hc => absurd (hdIff.mp hd) hc.1,
             fun _ => hshape,
             fun hc => absurd (hdIff.mp hd) hc.1,
             fun hc => absurd (hfIff.mpr hc.2) (by simp [hf])⟩
  · -- both
    simp only [hd, hf, Bool.not_true, Bool.false_and, Bool.and_false,
      Bool.and_self, if_false, Bool.false_eq_true] at h
    cases hdf : buildPlanWithDataAndFilter env isEdge sid with
    | none => rw [hdf] at h; simp at h
    | some c =>
      rw [hdf] at h
      simp only [Except.ok.injEq] at h
      subst h
      have hshape := buildPlanWithDataAndFilter_shape env isEdge sid c hdf
      exact ⟨fun hc => absurd (hdIff.mp hd) hc.1,
             fun hc => absurd (hfIff.mp hf) hc.2,
             fun hc => absurd (hdIff.mp hd) hc.1,
             fun _ => hshape⟩

/-- Witness for C1: index on (c1, c2), yield c3, no filter — the chain is
scan, vertex fetch, output. -/
theorem buildPlan_four_shapes_witness :
    (if false then wEnvC1.getEdgeIndex wCtxC1.indexId
     else wEnvC1.getTagIndex wCtxC1.indexId) = some wIndexC1 ∧
    buildPlanForContext wEnvC1 false 7 ["c3"] wCtxC1 =
      Except.ok [PlanNode.indexScanNode, PlanNode.indexVertexNode,
                 PlanNode.indexOutputNode] ∧
    [PlanNode.indexScanNode, PlanNode.indexVertexNode,
     PlanNode.indexOutputNode] =
      [PlanNode.indexScanNode,
       if false then PlanNode.indexEdgeNode else PlanNode.indexVertexNode,
       PlanNode.indexOutputNode] :=
  ⟨rfl, rfl,
   (buildPlan_four_shapes wEnvC1 false 7 ["c3"] wCtxC1 wIndexC1
      [PlanNode.indexScanNode, PlanNode.indexVertexNode,
       PlanNode.indexOutputNode]
      rfl rfl).2.1 ⟨by decide, by decide⟩⟩

/-- Counterexample for C7: index 3 exists over (c1), yield c3 forces
needData, the tag schema is missing — the planner answers the generic plan
error, not SchemaNotFound. -/
theorem lookup_schema_missing_error_counterexample :
    cexEnvC7.getTagIndex cexCtxC7.indexId = some cexIndexC7 ∧
    specNeedData ["c3"] cexIndexC7.fields ∧
    cexEnvC7.hasTagSchema 7 = false ∧
    buildPlanForContext cexEnvC7 false 7 ["c3"] cexCtxC7 =
      Except.error PlanStatus.planError ∧
    buildPlanForContext cexEnvC7 false 7 ["c3"] cexCtxC7 ≠
      Except.error PlanStatus.schemaNotFound := by
  refine ⟨rfl, by decide, rfl, rfl, ?_⟩
  intro h
  have h1 : buildPlanForContext cexEnvC7 false 7 ["c3"] cexCtxC7 =
      Except.error PlanStatus.planError := rfl
  rw [h1] at h
  simp at h

theorem buildPlanWithData_none (env : LookupEnv) (isEdge : Bool) (sid : Nat)
    (h : buildPlanWithData env isEdge sid = none) :
    (if isEdge then env.hasEdgeSchema sid else env.hasTagSchema sid) = false ∨
    (if isEdge then env.toEdgeName sid else env.toTagName sid) = none := by
  cases isEdge
  case false =>
    have hrw : buildPlanWithData env false sid =
        (if env.hasTagSchema sid = true then
          match env.toTagName sid with
          | none => none
          | some _ => some [PlanNode.indexScanNode, PlanNode.indexVertexNode,
                            PlanNode.indexOutputNode]
         else none) := rfl
    rw [hrw] at h
    by_cases hs : env.hasTagSchema sid = true
    · rw [if_pos hs] at h
      cases hn : env.toTagName sid
      · right; simp
      · rw [hn] at h; simp at h
    · simp at hs
      left; simpa using hs
  case true =>
    have hrw : buildPlanWithData env true sid =
        (if env.hasEdgeSchema sid = true then
          match env.toEdgeName sid with
          | none => none
          | some _ => some [PlanNode.indexScanNode, PlanNode.indexEdgeNode,
                            PlanNode.indexOutputNode]
         else none) := rfl
    rw [hrw] at h
    by_cases hs : env.hasEdgeSchema sid = true
    · rw [if_pos hs] at h
      cases hn : env.toEdgeName sid
      · right; simp
      · rw [hn] at h; simp at h
    · simp at hs
      left; simpa using hs

theorem buildPlanWithDataAndFilter_none (env : LookupEnv) (isEdge : Bool)
    (sid : Nat) (h : buildPlanWithDataAndFilter env isEdge sid = none) :
    (if isEdge then env.hasEdgeSchema sid else env.hasTagSchema sid) = false ∨
    (if isEdge then env.toEdgeName sid else env.toTagName sid) = none := by
  cases isEdge
  case false =>
    have hrw : buildPlanWithDataAndFilter env false sid =
        (if env.hasTagSchema sid = true then
          match env.toTagName sid with
          | none => none
          | some _ => some [PlanNode.indexScanNode, PlanNode.indexVertexNode,
                            PlanNode.indexFilterNode,
                            PlanNode.indexOutputNode]
         else none) := rfl
    rw [hrw] at h
    by_cases hs : env.hasTagSchema sid = true
    · rw [if_pos hs] at h
      cases hn : env.toTagName sid
      · right; simp
      · rw [hn] at h; simp at h
    · simp at hs
      left; simpa using hs
  case true =>
    have hrw : buildPlanWithDataAndFilter env true sid =
        (if env.hasEdgeSchema sid = true then
          match env.toEdgeName sid with
          | none => none
          | some _ => some [PlanNode.indexScanNode, PlanNode.indexEdgeNode,
                            PlanNode.indexFilterNode,
                            PlanNode.indexOutputNode]
         else none) := rfl
    rw [hrw] at h
    by_cases hs : env.hasEdgeSchema sid = true
    · rw [if_pos hs] at h
      cases hn : env.toEdgeName sid
      · right; simp
      · rw [hn] at h; simp at h
    · simp at hs
      left; simpa using hs

/-- C7 amended: requestCheck fails with InvalidOperation exactly on an empty
context list; buildPlan fails with IndexNotFound when the index lookup
fails; every other buildPlan failure is the generic plan error, raised only
when needData holds and the schema or its name is missing. -/
theorem lookup_planner_errors_amended :
    (∀ (n : Nat) (req : LookupIndexRequest), req.contexts = [] →
        requestCheck (Except.ok n) req =
          Except.error ErrorCode.E_INVALID_OPERATION) ∧
    (∀ (env : LookupEnv) (isEdge : Bool) (sid : Nat) (y : List String)
       (ctx : IndexQueryContext),
        (if isEdge then env.getEdgeIndex ctx.indexId
         else env.getTagIndex ctx.indexId) = none →
        buildPlanForContext env isEdge sid y ctx =
          Except.error PlanStatus.indexNotFound) ∧
    (∀ (env : LookupEnv) (isEdge : Bool) (sid : Nat) (y : List String)
       (ctx : IndexQueryContext) (e : PlanStatus),
        buildPlanForContext env isEdge sid y ctx = Except.error e →
        e = PlanStatus.indexNotFound ∨ e = PlanStatus.planError) ∧
    (∀ (env : LookupEnv) (isEdge : Bool) (sid : Nat) (y : List String)
       (ctx : IndexQueryContext),
        buildPlanForContext env isEdge sid y ctx =
          Except.error PlanStatus.planError →
        ∃ index,
          (if isEdge then env.getEdgeIndex ctx.indexId
           else env.getTagIndex ctx.indexId) = some index ∧
          specNeedData y index.fields ∧
          ((if isEdge then env.hasEdgeSchema sid
            else env.hasTagSchema sid) = false ∨
           (if isEdge then env.toEdgeName sid
            else env.toTagName sid) = none)) := by
  refine ⟨?_, ?_, ?_, ?_⟩
  · intro n req hc
    simp [requestCheck, hc]
  · intro env isEdge sid y ctx hidx
    unfold buildPlanForContext
    rw [hidx]
  · intro env isEdge sid y ctx e h
    cases hidx : (if isEdge then env.getEdgeIndex ctx.indexId
                  else env.getTagIndex ctx.indexId) with
    | none =>
      unfold buildPlanForContext at h
      rw [hidx] at h
      simp at h
      left; exact h.symm
    | some index =>
      rw [buildPlanForContext_eq env isEdge sid y ctx index hidx] at h
      cases hd : ctxNeedData y index.fields <;>
        cases hf : ctxNeedFilter ctx <;>
        simp only [hd, hf, Bool.not_false, Bool.not_true, Bool.and_self,
          Bool.true_and, Bool.and_false, Bool.false_and, Bool.and_true,
          if_true, if_false, Bool.false_eq_true] at h
      · simp at h
      · simp at h
      · cases hdf : buildPlanWithData env isEdge sid with
        | none => right; rw [hdf] at h; simpa using h.symm
        | some c => rw [hdf] at h; simp at h
      · cases hdf : buildPlanWithDataAndFilter env isEdge sid with
        | none => right; rw [hdf] at h; simpa using h.symm
        | some c => rw [hdf] at h; simp at h
  · intro env isEdge sid y ctx h
    cases hidx : (if isEdge then env.getEdgeIndex ctx.indexId
                  else env.getTagIndex ctx.indexId) with
    | none =>
      unfold buildPlanForContext at h
      rw [hidx] at h
      simp at h
    | some index =>
      rw [buildPlanForContext_eq env isEdge sid y ctx index hidx] at h
      refine ⟨index, rfl, ?_⟩
      cases hd : ctxNeedData y index.fields <;>
        cases hf : ctxNeedFilter ctx <;>
        simp only [hd, hf, Bool.not_false, Bool.not_true, Bool.and_self,
          Bool.true_and, Bool.and_false, Bool.false_and, Bool.and_true,
          if_true, if_false, Bool.false_eq_true] at h
      · simp at h
      · simp at h
      · refine ⟨(ctxNeedData_iff y index.fields).mp hd, ?_⟩
        cases hdf : buildPlanWithData env isEdge sid with
        | none => exact buildPlanWithData_none env isEdge sid hdf
        | some c => rw [hdf] at h; simp at h
      · refine ⟨(ctxNeedData_iff y index.fields).mp hd, ?_⟩
        cases hdf : buildPlanWithDataAndFilter env isEdge sid with
        | none => exact buildPlanWithDataAndFilter_none env isEdge sid hdf
        | some c => rw [hdf] at h; simp at h

/-- Witness for C7 (amended): an empty context list and a missing index at
concrete inputs. -/
theorem lookup_planner_errors_amended_witness :
    requestCheck (Except.ok 8)
        (⟨1, false, 7, [], some ["c1"]⟩ : LookupIndexRequest) =
      Except.error ErrorCode.E_INVALID_OPERATION ∧
    buildPlanForContext wEnvC7none false 7 ["c1"]
        (⟨3, none, []⟩ : IndexQueryContext) =
      Except.error PlanStatus.indexNotFound :=
  ⟨lookup_planner_errors_amended.1 8 ⟨1, false, 7, [], some ["c1"]⟩ rfl,
   lookup_planner_errors_amended.2.1 wEnvC7none false 7 ["c1"]
     ⟨3, none, []⟩ rfl⟩

theorem runWrites_all_ok (w : RowWriterModel) :
    ∀ (l : List (WriteTarget × Value)),
      (∀ p ∈ l, w.setVal p.1 p.2 = WriteResult.SUCCEEDED) →
      runWrites w l = (WriteResult.SUCCEEDED, l) := by
  intro l
  induction l with
  | nil => intro _; rfl
  | cons p rest ih =>
    intro hall
    have hp : w.setVal p.1 p.2 = WriteResult.SUCCEEDED :=
      hall p (List.mem_cons_self p rest)
    have hrest := ih (fun q hq => hall q (List.mem_cons_of_mem p hq))
    cases p with
    | mk t v =>
      simp only [runWrites, hp, if_pos, hrest]

theorem runWrites_first_fail (w : RowWriterModel) :
    ∀ (pre : List (WriteTarget × Value)) (p : WriteTarget × Value)
      (post : List (WriteTarget × Value)),
      (∀ q ∈ pre, w.setVal q.1 q.2 = WriteResult.SUCCEEDED) →
      w.setVal p.1 p.2 ≠ WriteResult.SUCCEEDED →
      runWrites w (pre ++ p :: post) = (w.setVal p.1 p.2, pre ++ [p]) := by
  intro pre
  induction pre with
  | nil =>
    intro p post _ hfail
    cases p with
    | mk t v =>
      simp only [List.nil_append, runWrites, if_neg hfail]
  | cons q qs ih =>
    intro p post hok hfail
    have hq : w.setVal q.1 q.2 = WriteResult.SUCCEEDED :=
      hok q (List.mem_cons_self q qs)
    have hrest := ih p post (fun r hr => hok r (List.mem_cons_of_mem q hr))
      hfail
    cases q with
    | mk t v =>
      simp only [List.cons_append, runWrites, hq, if_pos]
      show ((runWrites w (qs ++ p :: post)).1,
            (t, v) :: (runWrites w (qs ++ p :: post)).2) =
          (w.setVal p.1 p.2, (t, v) :: (qs ++ [p]))
      rw [hrest]

/-- C10: encodeRowVal writes props[i] to the field named propNames[i] when
propNames is non-empty and to field position i otherwise; the first failing
write (or a failing finish) aborts with an error status carrying that fault
in wRet, and otherwise the encoded row is returned. -/
theorem encodeRowVal_spec :
    ∀ (w : RowWriterModel) (propNames : List String) (props : List Value),
      let seq := if propNames.isEmpty then indexedWriteSeq props
                 else namedWriteSeq propNames props
      ((∀ q ∈ seq, w.setVal q.1 q.2 = WriteResult.SUCCEEDED) →
        w.finishRes = WriteResult.SUCCEEDED →
        encodeRowVal w propNames props =
          ⟨Except.ok w.encoded, WriteResult.SUCCEEDED, seq⟩) ∧
      ((∀ q ∈ seq, w.setVal q.1 q.2 = WriteResult.SUCCEEDED) →
        w.finishRes ≠ WriteResult.SUCCEEDED →
        encodeRowVal w propNames props =
          ⟨Except.error "Add field faild", w.finishRes, seq⟩) ∧
      (∀ (pre : List (WriteTarget × Value)) (q : WriteTarget × Value)
         (post : List (WriteTarget × Value)),
        seq = pre ++ q :: post →
        (∀ r ∈ pre, w.setVal r.1 r.2 = WriteResult.SUCCEEDED) →
        w.setVal q.1 q.2 ≠ WriteResult.SUCCEEDED →
        encodeRowVal w propNames props =
          ⟨Except.error "Add field faild", w.setVal q.1 q.2, pre ++ [q]⟩) := by
  intro w propNames props
  refine ⟨?_, ?_, ?_⟩
  · intro hall hfin
    have hr := runWrites_all_ok w _ hall
    simp only [encodeRowVal]
    rw [hr]
    simp [hfin]
  · intro hall hfin
    have hr := runWrites_all_ok w _ hall
    simp only [encodeRowVal]
    rw [hr]
    simp [hfin]
  · intro pre q post hseq hok hfail
    have hr := runWrites_first_fail w pre q post hok hfail
    simp only [encodeRowVal]
    rw [hseq, hr]
    simp [hfail]

/-- Witness for C10: named writes where the field bad is rejected with a
type mismatch after a successful first write. -/
theorem encodeRowVal_spec_witness :
    encodeRowVal wWriterOk ["p1", "p2"] [Value.intV 1, Value.intV 2] =
      ⟨Except.ok "enc", WriteResult.SUCCEEDED,
       namedWriteSeq ["p1", "p2"] [Value.intV 1, Value.intV 2]⟩ ∧
    encodeRowVal wWriterBad ["p1", "bad"] [Value.intV 1, Value.intV 2] =
      ⟨Except.error "Add field faild",
       wWriterBad.setVal (WriteTarget.byName "bad") (Value.intV 2),
       [(WriteTarget.byName "p1", Value.intV 1),
        (WriteTarget.byName "bad", Value.intV 2)]⟩ :=
  ⟨(encodeRowVal_spec wWriterOk ["p1", "p2"]
      [Value.intV 1, Value.intV 2]).1 (fun q _ => rfl) rfl,
   (encodeRowVal_spec wWriterBad ["p1", "bad"]
      [Value.intV 1, Value.intV 2]).2.2
     [(WriteTarget.byName "p1", Value.intV 1)]
     (WriteTarget.byName "bad", Value.intV 2) [] rfl
     (by intro r hr; simp at hr; subst hr; rfl)
     (by intro hcontra; simp [wWriterBad] at hcontra)⟩

theorem splitPartEdges_fail_at (env : TossEnv) (vIdLen : Nat)
    (pn : List String) (lp : PartitionID) :
    ∀ (es1 : List NewEdge) (e : NewEdge) (es2 : List NewEdge),
      (∀ e' ∈ es1, edgeSplitOk env pn e') →
      ((env.partIdOf e.key.dst = none →
        splitPartEdges env vIdLen pn lp (es1 ++ e :: es2) =
          Except.error ErrorCode.E_SPACE_NOT_FOUND) ∧
       (∀ (rp : PartitionID) (c : ErrorCode),
        env.partIdOf e.key.dst = some rp →
        encodeSingleEdgeProps env pn e = Except.error c →
        splitPartEdges env vIdLen pn lp (es1 ++ e :: es2) =
          Except.error c)) := by
  intro es1
  induction es1 with
  | nil =>
    intro e es2 _
    constructor
    · intro hp
      simp only [List.nil_append, splitPartEdges]
      rw [hp]
    · intro rp c hp henc
      simp only [List.nil_append, splitPartEdges]
      rw [hp, henc]
  | cons e' es1 ih =>
    intro e es2 hok
    obtain ⟨⟨rp', hrp'⟩, ⟨v', hv'⟩⟩ := hok e' (List.mem_cons_self e' es1)
    have hok' : ∀ x ∈ es1, edgeSplitOk env pn x :=
      fun x hx => hok x (List.mem_cons_of_mem e' hx)
    have hih := ih e es2 hok'
    constructor
    · intro hp
      simp only [List.cons_append, splitPartEdges]
      rw [hrp', hv']
      have hX : splitPartEdges env vIdLen pn lp (List.append es1 (e :: es2)) =
          Except.error ErrorCode.E_SPACE_NOT_FOUND := hih.1 hp
      rw [hX]
    · intro rp c hp henc
      simp only [List.cons_append, splitPartEdges]
      rw [hrp', hv']
      have hX : splitPartEdges env vIdLen pn lp (List.append es1 (e :: es2)) =
          Except.error c := hih.2 rp c hp henc
      rw [hX]

theorem splitRequest_mem_error (env : TossEnv) (vIdLen : Nat)
    (pn : List String) :
    ∀ (parts : List (PartitionID × List NewEdge)) (lp : PartitionID)
      (es : List NewEdge) (c : ErrorCode),
      (lp, es) ∈ parts →
      splitPartEdges env vIdLen pn lp es = Except.error c →
      (lp, c) ∈ (splitRequest env vIdLen pn parts).1 := by
  intro parts
  induction parts with
  | nil => intro lp es c h _; simp at h
  | cons p rest ih =>
    intro lp es c hmem hsplit
    rcases List.mem_cons.mp hmem with heq | hmem2
    · subst heq
      simp only [splitRequest]
      rw [hsplit]
      exact List.mem_cons_self _ _
    · have htail := ih lp es c hmem2 hsplit
      cases p with
      | mk lp' es' =>
        simp only [splitRequest]
        cases hsp : splitPartEdges env vIdLen pn lp' es' with
        | error c' => exact List.mem_cons_of_mem _ htail
        | ok pairs => exact htail

theorem foldl_pushCode_init_sub :
    ∀ (l : List (PartitionID × ErrorCode))
      (init : List (ErrorCode × PartitionID)) (x : ErrorCode × PartitionID),
      x ∈ init → x ∈ l.foldl (fun acc p => pushCode p.2 p.1 acc) init := by
  intro l
  induction l with
  | nil => intro init x hx; simpa using hx
  | cons p rest ih =>
    intro init x hx
    simp only [List.foldl_cons]
    apply ih
    unfold pushCode
    split_ifs
    · exact List.mem_append_left _ hx
    · exact hx

theorem foldl_pushCode_mem :
    ∀ (l : List (PartitionID × ErrorCode))
      (init : List (ErrorCode × PartitionID)) (lp : PartitionID)
      (c : ErrorCode),
      (lp, c) ∈ l → c ≠ ErrorCode.SUCCEEDED →
      (c, lp) ∈ l.foldl (fun acc p => pushCode p.2 p.1 acc) init := by
  intro l
  induction l with
  | nil => intro init lp c h _; simp at h
  | cons p rest ih =>
    intro init lp c hmem hc
    rcases List.mem_cons.mp hmem with heq | hmem2
    · subst heq
      simp only [List.foldl_cons]
      apply foldl_pushCode_init_sub
      unfold pushCode
      rw [if_pos hc]
      exact List.mem_append_right _ (List.mem_singleton.mpr rfl)
    · simp only [List.foldl_cons]
      exact ih _ lp c hmem2 hc

theorem processByChain_abort (env : TossEnv) (vIdLen : Nat)
    (req : AddEdgesRequest) (chainResults : ChainId → Option ErrorCode)
    (h : (splitRequest env vIdLen req.propNames req.parts).1 ≠ []) :
    processByChain env vIdLen req chainResults =
      ⟨(splitRequest env vIdLen req.propNames req.parts).1.foldl
          (fun acc p => pushCode p.2 p.1 acc) [], [], true⟩ := by
  simp only [processByChain]
  cases hsp : (splitRequest env vIdLen req.propNames req.parts).1 with
  | nil => exact absurd hsp h
  | cons a l => simp [hsp]

theorem processByChain_success (env : TossEnv) (vIdLen : Nat)
    (req : AddEdgesRequest) (chainResults : ChainId → Option ErrorCode)
    (idxs : List Nat)
    (h1 : (splitRequest env vIdLen req.propNames req.parts).1 = [])
    (h2 : env.getEdgeIndexes = some idxs) :
    processByChain env vIdLen req chainResults =
      ⟨(groupByChain (splitRequest env vIdLen req.propNames
            req.parts).2).foldl
          (fun acc g =>
            pushCode (effectiveChainCode (chainResults g.1)) g.1.1 acc) [],
       groupByChain (splitRequest env vIdLen req.propNames req.parts).2,
       true⟩ := by
  simp only [processByChain]
  rw [h1, h2]
  rfl

/-- C2: in the atomic edge writer, a failed remote-partition resolution for
an edge's destination records E_SPACE_NOT_FOUND against that edge's local
partition and the whole request aborts with no chain submitted; a failed row
encoding (schema present, encoder not ok) records E_DATA_TYPE_MISMATCH
against the offending local partition and likewise aborts before any write. -/
theorem addEdgesAtomic_abort_on_failure :
    ∀ (env : TossEnv) (vIdLen : Nat) (req : AddEdgesRequest)
      (chainResults : ChainId → Option ErrorCode) (lp : PartitionID)
      (es es1 : List NewEdge) (e : NewEdge) (es2 : List NewEdge),
      (lp, es) ∈ req.parts →
      es = es1 ++ e :: es2 →
      (∀ e' ∈ es1, edgeSplitOk env req.propNames e') →
      ((env.partIdOf e.key.dst = none →
        (ErrorCode.E_SPACE_NOT_FOUND, lp) ∈
            (processByChain env vIdLen req chainResults).codes ∧
        (processByChain env vIdLen req chainResults).submitted = []) ∧
       (∀ (rp : PartitionID) (w : RowWriterModel) (msg : String),
        env.partIdOf e.key.dst = some rp →
        env.getEdgeSchema e.key.edgeType.natAbs = some w →
        (encodeRowVal w req.propNames e.props).result = Except.error msg →
        (ErrorCode.E_DATA_TYPE_MISMATCH, lp) ∈
            (processByChain env vIdLen req chainResults).codes ∧
        (processByChain env vIdLen req chainResults).submitted = [])) := by
  intro env vIdLen req chainResults lp es es1 e es2 hmem hes hok
  subst hes
  have hfail := splitPartEdges_fail_at env vIdLen req.propNames lp es1 e es2
    hok
  constructor
  · intro hp
    have hsplit := hfail.1 hp
    have hmemerr := splitRequest_mem_error env vIdLen req.propNames req.parts
      lp (es1 ++ e :: es2) ErrorCode.E_SPACE_NOT_FOUND hmem hsplit
    have hne : (splitRequest env vIdLen req.propNames req.parts).1 ≠ [] := by
      intro hnil
      rw [hnil] at hmemerr
      simp at hmemerr
    rw [processByChain_abort env vIdLen req chainResults hne]
    exact ⟨foldl_pushCode_mem _ [] lp ErrorCode.E_SPACE_NOT_FOUND hmemerr
      (by decide), rfl⟩
  · intro rp w msg hp hschema hencfail
    have henc : encodeSingleEdgeProps env req.propNames e =
        Except.error ErrorCode.E_DATA_TYPE_MISMATCH := by
      unfold encodeSingleEdgeProps
      rw [hschema]
      show (match (encodeRowVal w req.propNames e.props).result with
            | Except.error _ => Except.error ErrorCode.E_DATA_TYPE_MISMATCH
            | Except.ok v => Except.ok v) =
          Except.error ErrorCode.E_DATA_TYPE_MISMATCH
      rw [hencfail]
    have hsplit := hfail.2 rp ErrorCode.E_DATA_TYPE_MISMATCH hp henc
    have hmemerr := splitRequest_mem_error env vIdLen req.propNames req.parts
      lp (es1 ++ e :: es2) ErrorCode.E_DATA_TYPE_MISMATCH hmem hsplit
    have hne : (splitRequest env vIdLen req.propNames req.parts).1 ≠ [] := by
      intro hnil
      rw [hnil] at hmemerr
      simp at hmemerr
    rw [processByChain_abort env vIdLen req chainResults hne]
    exact ⟨foldl_pushCode_mem _ [] lp ErrorCode.E_DATA_TYPE_MISMATCH hmemerr
      (by decide), rfl⟩

/-- Witness for C2: a one-edge request whose destination partition does not
resolve, and one whose codec rejects the row. -/
theorem addEdgesAtomic_abort_on_failure_witness :
    ((ErrorCode.E_SPACE_NOT_FOUND, 1) ∈
        (processByChain wTossEnvNoPart 8 wReqOk (fun _ => none)).codes ∧
      (processByChain wTossEnvNoPart 8 wReqOk (fun _ => none)).submitted =
        []) ∧
    ((ErrorCode.E_DATA_TYPE_MISMATCH, 1) ∈
        (processByChain wTossEnvBadCodec 8 wReqBad (fun _ => none)).codes ∧
      (processByChain wTossEnvBadCodec 8 wReqBad (fun _ => none)).submitted =
        []) :=
  ⟨(addEdgesAtomic_abort_on_failure wTossEnvNoPart 8 wReqOk (fun _ => none)
      1 [wEdgeAB] [] wEdgeAB [] (List.mem_cons_self _ _) rfl
      (by intro e' he'; simp at he')).1 rfl,
   (addEdgesAtomic_abort_on_failure wTossEnvBadCodec 8 wReqBad (fun _ => none)
      1 [wEdgeAB] [] wEdgeAB [] (List.mem_cons_self _ _) rfl
      (by intro e' he'; simp at he')).2 2 wWriterBad "Add field faild"
      rfl rfl rfl⟩

theorem insertChain_fst (acc : List (ChainId × List EdgeKV)) (cid : ChainId)
    (kv : EdgeKV) :
    (insertChain acc cid kv).map Prod.fst =
      if cid ∈ acc.map Prod.fst then acc.map Prod.fst
      else acc.map Prod.fst ++ [cid] := by
  induction acc with
  | nil => simp [insertChain]
  | cons p rest ih =>
    cases p with
    | mk c kvs =>
      by_cases hc : c = cid
      · subst hc
        simp [insertChain]
      · have hc' : ¬(cid = c) := fun h => hc h.symm
        simp only [insertChain, if_neg hc, List.map_cons]
        rw [ih]
        by_cases hm : cid ∈ rest.map Prod.fst
        · simp [hm, hc', List.mem_cons]
        · simp [hm, hc', List.mem_cons]

theorem insertChain_nodup (acc : List (ChainId × List EdgeKV)) (cid : ChainId)
    (kv : EdgeKV) (h : (acc.map Prod.fst).Nodup) :
    ((insertChain acc cid kv).map Prod.fst).Nodup := by
  rw [insertChain_fst]
  split_ifs with hm
  · exact h
  · simp [List.nodup_append, h, hm]

theorem insertChain_mem_fst (acc : List (ChainId × List EdgeKV))
    (cid : ChainId) (kv : EdgeKV) (x : ChainId) :
    x ∈ (insertChain acc cid kv).map Prod.fst ↔
      x ∈ acc.map Prod.fst ∨ x = cid := by
  rw [insertChain_fst]
  split_ifs with hm
  · constructor
    · exact Or.inl
    · rintro (h | rfl)
      · exact h
      · exact hm
  · simp [List.mem_append]

theorem groupAux_nodup :
    ∀ (pairs : List (ChainId × EdgeKV)) (acc : List (ChainId × List EdgeKV)),
      (acc.map Prod.fst).Nodup →
      (((pairs.foldl (fun a p => insertChain a p.1 p.2) acc)).map
          Prod.fst).Nodup := by
  intro pairs
  induction pairs with
  | nil => intro acc h; simpa using h
  | cons p ps ih =>
    intro acc h
    simp only [List.foldl_cons]
    exact ih _ (insertChain_nodup acc p.1 p.2 h)

theorem groupAux_mem :
    ∀ (pairs : List (ChainId × EdgeKV)) (acc : List (ChainId × List EdgeKV))
      (x : ChainId),
      x ∈ ((pairs.foldl (fun a p => insertChain a p.1 p.2) acc).map
          Prod.fst) ↔
        x ∈ acc.map Prod.fst ∨ ∃ kv, (x, kv) ∈ pairs := by
  intro pairs
  induction pairs with
  | nil => intro acc x; simp
  | cons p ps ih =>
    intro acc x
    rw [List.foldl_cons, ih, insertChain_mem_fst]
    constructor
    · rintro ((h | rfl) | ⟨kv, hkv⟩)
      · exact Or.inl h
      · refine Or.inr ⟨p.2, ?_⟩
        have : p = (p.1, p.2) := rfl
        rw [← this]
        exact List.mem_cons_self p ps
      · exact Or.inr ⟨kv, List.mem_cons_of_mem p hkv⟩
    · rintro (h | ⟨kv, hkv⟩)
      · exact Or.inl (Or.inl h)
      · rcases List.mem_cons.mp hkv with heq | hmem
        · left; right
          have := congrArg Prod.fst heq
          simpa using this
        · right; exact ⟨kv, hmem⟩

theorem groupByChain_nodup (pairs : List (ChainId × EdgeKV)) :
    ((groupByChain pairs).map Prod.fst).Nodup :=
  groupAux_nodup pairs [] (by simp)

theorem groupByChain_mem (pairs : List (ChainId × EdgeKV)) (x : ChainId) :
    x ∈ (groupByChain pairs).map Prod.fst ↔ ∃ kv, (x, kv) ∈ pairs := by
  unfold groupByChain
  rw [groupAux_mem]
  simp

theorem foldl_pushCode_filterMap (f : ChainId × List EdgeKV → ErrorCode) :
    ∀ (groups : List (ChainId × List EdgeKV))
      (init : List (ErrorCode × PartitionID)),
      groups.foldl (fun acc g => pushCode (f g) g.1.1 acc) init =
        init ++ groups.filterMap (fun g =>
          if f g ≠ ErrorCode.SUCCEEDED then some (f g, g.1.1) else none) := by
  intro groups
  induction groups with
  | nil => intro init; simp
  | cons g gs ih =>
    intro init
    simp only [List.foldl_cons, List.filterMap_cons]
    by_cases hc : f g = ErrorCode.SUCCEEDED
    · rw [ih]
      simp [pushCode, hc]
    · rw [ih]
      simp [pushCode, hc]

theorem splitPartEdges_ok_src (env : TossEnv) (vIdLen : Nat)
    (pn : List String) (lp : PartitionID) :
    ∀ (es : List NewEdge) (l : List (ChainId × EdgeKV)),
      splitPartEdges env vIdLen pn lp es = Except.ok l →
      ∀ q ∈ l, q.1.1 = lp ∧
        ∃ e ∈ es, env.partIdOf e.key.dst = some q.1.2 := by
  intro es
  induction es with
  | nil =>
    intro l h
    simp only [splitPartEdges, Except.ok.injEq] at h
    subst h
    intro q hq
    simp at hq
  | cons e es ih =>
    intro l h
    simp only [splitPartEdges] at h
    cases hp : env.partIdOf e.key.dst with
    | none => rw [hp] at h; simp at h
    | some rp =>
      rw [hp] at h
      cases henc : encodeSingleEdgeProps env pn e with
      | error c => rw [henc] at h; simp at h
      | ok v =>
        rw [henc] at h
        cases hrec : splitPartEdges env vIdLen pn lp es with
        | error c => rw [hrec] at h; simp at h
        | ok rest =>
          rw [hrec] at h
          simp only [Except.ok.injEq] at h
          subst h
          intro q hq
          rcases List.mem_cons.mp hq with rfl | hmem
          · exact ⟨rfl, e, List.mem_cons_self e es, hp⟩
          · obtain ⟨h1, e', he', hpe⟩ := ih rest hrec q hmem
            exact ⟨h1, e', List.mem_cons_of_mem e he', hpe⟩

theorem splitRequest_ok_pairs (env : TossEnv) (vIdLen : Nat)
    (pn : List String) :
    ∀ (parts : List (PartitionID × List NewEdge)) (q : ChainId × EdgeKV),
      q ∈ (splitRequest env vIdLen pn parts).2 →
      ∃ lp es, (lp, es) ∈ parts ∧ q.1.1 = lp ∧
        ∃ e ∈ es, env.partIdOf e.key.dst = some q.1.2 := by
  intro parts
  induction parts with
  | nil => intro q hq; simp [splitRequest] at hq
  | cons p rest ih =>
    intro q hq
    cases p with
    | mk lp' es' =>
      simp only [splitRequest] at hq
      cases hsp : splitPartEdges env vIdLen pn lp' es' with
      | error c =>
        rw [hsp] at hq
        obtain ⟨lp, es, hmem, h1, he⟩ := ih q hq
        exact ⟨lp, es, List.mem_cons_of_mem _ hmem, h1, he⟩
      | ok pairs =>
        rw [hsp] at hq
        rcases List.mem_append.mp hq with hin | hin
        · obtain ⟨h1, e', he', hpe⟩ :=
            splitPartEdges_ok_src env vIdLen pn lp' es' pairs hsp q hin
          exact ⟨lp', es', List.mem_cons_self _ _, h1, e', he', hpe⟩
        · obtain ⟨lp, es, hmem, h1, he⟩ := ih q hin
          exact ⟨lp, es, List.mem_cons_of_mem _ hmem, h1, he⟩

/-- C3: after a clean split, the encoded pairs are grouped by chain
(local, remote-from-dst); exactly one addSamePartEdges submission happens per
distinct chain; every chain whose effective result is not Succeeded is
recorded against its local part, a lost future counting as E_UNKNOWN; and the
processor finishes once all chain futures are accounted for. -/
theorem addEdgesAtomic_chain_submission :
    ∀ (env : TossEnv) (vIdLen : Nat) (req : AddEdgesRequest)
      (chainResults : ChainId → Option ErrorCode) (idxs : List Nat),
      (splitRequest env vIdLen req.propNames req.parts).1 = [] →
      env.getEdgeIndexes = some idxs →
      (processByChain env vIdLen req chainResults).submitted =
        groupByChain (splitRequest env vIdLen req.propNames req.parts).2 ∧
      (((processByChain env vIdLen req chainResults).submitted.map
          Prod.fst).Nodup) ∧
      (∀ cid : ChainId,
        cid ∈ (processByChain env vIdLen req chainResults).submitted.map
            Prod.fst ↔
          ∃ kv, (cid, kv) ∈
            (splitRequest env vIdLen req.propNames req.parts).2) ∧
      (∀ q ∈ (splitRequest env vIdLen req.propNames req.parts).2,
        ∃ lp es, (lp, es) ∈ req.parts ∧ q.1.1 = lp ∧
          ∃ e ∈ es, env.partIdOf e.key.dst = some q.1.2) ∧
      (processByChain env vIdLen req chainResults).codes =
        (groupByChain
            (splitRequest env vIdLen req.propNames req.parts).2).filterMap
          (fun g =>
            if effectiveChainCode (chainResults g.1) ≠ ErrorCode.SUCCEEDED
            then some (effectiveChainCode (chainResults g.1), g.1.1)
            else none) ∧
      (processByChain env vIdLen req chainResults).finished = true := by
  intro env vIdLen req chainResults idxs h1 h2
  rw [processByChain_success env vIdLen req chainResults idxs h1 h2]
  refine ⟨rfl, groupByChain_nodup _, fun cid => groupByChain_mem _ cid,
          fun q hq => splitRequest_ok_pairs env vIdLen req.propNames
            req.parts q hq, ?_, rfl⟩
  have hfm := foldl_pushCode_filterMap
    (fun g => effectiveChainCode (chainResults g.1))
    (groupByChain (splitRequest env vIdLen req.propNames req.parts).2) []
  simpa using hfm

/-- Witness for C3: one edge a -> b with destination in part 2, chain (1,2),
whose future reports a consensus error recorded against part 1. -/
theorem addEdgesAtomic_chain_submission_witness :
    (processByChain wTossEnvOk 8 wReqOk
        (fun _ => some ErrorCode.E_CONSENSUS_ERROR)).submitted =
      groupByChain (splitRequest wTossEnvOk 8 wReqOk.propNames
        wReqOk.parts).2 ∧
    (processByChain wTossEnvOk 8 wReqOk
        (fun _ => some ErrorCode.E_CONSENSUS_ERROR)).codes =
      (groupByChain (splitRequest wTossEnvOk 8 wReqOk.propNames
          wReqOk.parts).2).filterMap
        (fun g =>
          if effectiveChainCode (some ErrorCode.E_CONSENSUS_ERROR) ≠
              ErrorCode.SUCCEEDED
          then some (effectiveChainCode (some ErrorCode.E_CONSENSUS_ERROR),
                     g.1.1)
          else none) :=
  ⟨(addEdgesAtomic_chain_submission wTossEnvOk 8 wReqOk
      (fun _ => some ErrorCode.E_CONSENSUS_ERROR) [] rfl rfl).1,
   (addEdgesAtomic_chain_submission wTossEnvOk 8 wReqOk
      (fun _ => some ErrorCode.E_CONSENSUS_ERROR) [] rfl rfl).2.2.2.2.1⟩
